import Mathlib

/-!
GameHub Arcade: session, authentication, scores, preferences and notifications.

A shallow embedding of the handlers of `src/app.js` that talk to the remote
store or render what they read from it, and the properties of the
specification that concern them.

Modelling conventions.

* A JavaScript number is a double (`JsNum`): a finite one is kept as its
  rational value, and a sum is the exact sum rounded to the nearest double.
  Timestamps, which are only compared, are natural numbers.
* A value that may be `null` or `undefined` is an `Option`; the JavaScript
  truthiness test on it is spelled out (`truthy`, `orZero`, `orStr`).
* The `length` of a string counts its UTF-16 code units (`jsLength`); a text
  that the code cuts with `substring` is kept as the list of its code units.
* The remote store is an in-memory tree whose reads and writes succeed.  A path
  such as `users/u1/stats` is the list of its segments; the keys the store hands
  out never contain a slash.
* Every handler returns the writes it issued next to the store that results
  from applying them in order.
-/

namespace GameHub

/-! ## JavaScript values -/

/-- Truthiness of a string-or-null value: `null` and the empty string are falsy. -/
def truthy : Option String → Bool
  | none => false
  | some s => s != ""

/-- The expression `a || b` where `a` is a string or `null` and `b` a string. -/
def orStr (a : Option String) (b : String) : String :=
  match a with
  | some s => if s != "" then s else b
  | none => b

/-- A JavaScript number: an IEEE 754 double, the finite ones by their rational value (the
two zeros are one: nothing the handlers compute or store tells them apart). -/
inductive JsNum where
  | nan
  | posInf
  | negInf
  | fin (q : ℚ)
  deriving DecidableEq, Repr

/-- Rounding of a rational to the nearest integer, a tie going to the even one. -/
def roundHalfEven (x : ℚ) : ℤ :=
  if x - ⌊x⌋ < 1 / 2 then ⌊x⌋
  else if 1 / 2 < x - ⌊x⌋ then ⌊x⌋ + 1
  else if ⌊x⌋ % 2 = 0 then ⌊x⌋ else ⌊x⌋ + 1

/-- The exponent of the unit in the last place of the doubles around `a`, for `0 < a`. -/
def ulpExponent (a : ℚ) : ℤ :=
  max (Int.log 2 a - 52) (-1074)

/-- The double nearest to `a`, for `0 < a`, as a rational; `2 ^ 1024` stands for overflow. -/
def roundMagnitude (a : ℚ) : ℚ :=
  (roundHalfEven (a / 2 ^ ulpExponent a) : ℚ) * 2 ^ ulpExponent a

/-- The double nearest to a rational, a tie going to the even significand. -/
def roundDouble (q : ℚ) : JsNum :=
  if q = 0 then .fin 0
  else if 2 ^ 1024 ≤ roundMagnitude |q| then (if 0 < q then .posInf else .negInf)
  else .fin (if 0 < q then roundMagnitude |q| else -roundMagnitude |q|)

/-- The sum `a + b` of two JavaScript numbers. -/
def jsAdd : JsNum → JsNum → JsNum
  | .nan, _ => .nan
  | _, .nan => .nan
  | .posInf, .negInf => .nan
  | .negInf, .posInf => .nan
  | .posInf, _ => .posInf
  | _, .posInf => .posInf
  | .negInf, _ => .negInf
  | _, .negInf => .negInf
  | .fin a, .fin b => roundDouble (a + b)


/-- A JavaScript number that is not negative: `NaN` is not. -/
def JsNum.Nonneg : JsNum → Prop
  | .fin q => 0 ≤ q
  | .posInf => True
  | _ => False

/-- A value of the model that is a double: rounding leaves it as it is. -/
def JsNum.IsDouble : JsNum → Prop
  | .fin q => roundDouble q = .fin q
  | _ => True

/-- The double of an integer, for integers of magnitude up to `2 ^ 53`. -/
def JsNum.ofInt (n : ℤ) : JsNum :=
  .fin n

/-- A numeric literal of the source. -/
instance (n : Nat) : OfNat JsNum n := ⟨.fin n⟩

/-- The expression `x || 0` on a number-or-missing value: a missing value, `0` and `NaN`
are falsy. -/
def orZero : Option JsNum → JsNum
  | none => 0
  | some .nan => 0
  | some (.fin q) => if q = 0 then 0 else .fin q
  | some x => x

/-- Interpolation of a string-or-null value inside a template literal. -/
def interp : Option String → String
  | none => "null"
  | some s => s

/-- The conversion `String(s)` of a property that may be missing. -/
def jsString : Option String → String
  | none => "undefined"
  | some s => s

/-- The UTF-16 code units of a character: one, or a surrogate pair. -/
def utf16Units (c : Char) : List Nat :=
  if c.toNat < 0x10000 then [c.toNat]
  else [0xD800 + (c.toNat - 0x10000) / 0x400, 0xDC00 + (c.toNat - 0x10000) % 0x400]

/-- The UTF-16 code units of a string, which are what `length` and `substring` count. -/
def utf16 (s : String) : List Nat :=
  s.data.flatMap utf16Units

/-- The property `s.length`. -/
def jsLength (s : String) : Nat :=
  (utf16 s).length

/-- The index `xs.indexOf(x)`, which is `-1` when `x` is absent. -/
def jsIndexOf (xs : List String) (x : String) : Int :=
  if x ∈ xs then (xs.indexOf x : Int) else -1

/-! ## Data model -/

/-- A store path, as the list of its segments. -/
abbrev Path := List String

/-- The Firebase user object handed to the authentication callbacks. -/
structure User where
  uid : String
  displayName : Option String
  email : Option String
  photoURL : Option String
  providerId : String
  deriving DecidableEq, Repr

/-- The process-wide `state` object. -/
structure State where
  user : Option User
  uid : Option String
  username : Option String
  showingAuth : Bool
  favoriteGames : List String
  pinnedGames : List String
  deriving DecidableEq, Repr

/-- The node `users/{uid}/stats`. -/
structure Stats where
  gamesPlayed : Option JsNum
  totalScore : Option JsNum
  deriving DecidableEq, Repr

/-- The payload pushed to `leaderboards/{game}`. -/
structure ScoreEntry where
  score : JsNum
  name : String
  userId : String
  ts : Nat
  deriving DecidableEq, Repr

/-- The node `users/{uid}`; a field that is `none` is absent from the store. -/
structure Profile where
  username : Option String
  email : Option String
  photoURL : Option String
  provider : Option String
  createdAt : Option Nat
  stats : Option Stats
  favoriteGames : Option (List String)
  pinnedGames : Option (List String)
  status : Option String
  deriving DecidableEq, Repr

/-- The absent profile. -/
def Profile.empty : Profile :=
  ⟨none, none, none, none, none, none, none, none, none⟩

/-- A child of `notifications/{uid}`: its key and the fields of its value. -/
structure NotifChild where
  key : String
  type : Option String
  fromUsername : Option String
  timestamp : Option Nat
  read : Option Bool
  deriving DecidableEq, Repr

/-- The local object `{ id: child.key, ...child.val() }`. -/
structure Notif where
  id : String
  type : Option String
  fromUsername : Option String
  timestamp : Option Nat
  read : Option Bool
  deriving DecidableEq, Repr

/-- The remote store. A collection is the list of its children; `keyLe` is the order the
store has on keys, by which an ordered query breaks its ties. -/
structure Db where
  users : String → Profile
  leaderboards : String → List ScoreEntry
  notifications : String → List NotifChild
  keyLe : String → String → Bool

/-- One write request sent to the store. -/
inductive Write where
  | transaction (path : Path) (f : Option Stats → Stats)
  | push (path : Path) (value : ScoreEntry)
  | set (path : Path) (value : List String)
  | update (values : List (Path × Bool))
  | setProfile (path : Path) (value : Profile)
  | setString (path : Path) (value : String)

/-- A trace left on the page or the console. -/
inductive Ui where
  | consoleWarn (msg : String)
  | alert (msg : String)
  | classAdd (cls : String)
  | classRemove (cls : String)
  | setText (element : String) (text : String)
  deriving DecidableEq, Repr

/-! ## The store -/

/-- The store keeps no empty array: writing `[]` removes the node. -/
def storedList (l : List String) : Option (List String) :=
  if l.isEmpty then none else some l

/-- Writing `v` at `notifications/{uid}/{id}/read` among the children of `uid`. -/
def setRead (id : String) (v : Bool) : List NotifChild → List NotifChild
  | [] => [⟨id, none, none, none, some v⟩]
  | c :: cs => if c.key = id then { c with read := some v } :: cs else c :: setRead id v cs

/-- Writing one entry of a multi-path update. -/
def Db.updateAt (db : Db) (e : Path × Bool) : Db :=
  match e.1 with
  | ["notifications", u, id, "read"] =>
      { db with notifications := Function.update db.notifications u (setRead id e.2 (db.notifications u)) }
  | _ => db

/-- The effect of one write request on the store. -/
def Db.write (db : Db) : Write → Db
  | .transaction ["users", u, "stats"] f =>
      { db with users := Function.update db.users u { db.users u with stats := some (f (db.users u).stats) } }
  | .push ["leaderboards", g] v =>
      { db with leaderboards := Function.update db.leaderboards g (db.leaderboards g ++ [v]) }
  | .set ["users", u, "favoriteGames"] l =>
      { db with users := Function.update db.users u { db.users u with favoriteGames := storedList l } }
  | .set ["users", u, "pinnedGames"] l =>
      { db with users := Function.update db.users u { db.users u with pinnedGames := storedList l } }
  | .update values => values.foldl Db.updateAt db
  | .setProfile ["users", u] p =>
      { db with users := Function.update db.users u p }
  | .setString ["users", u, "username"] v =>
      { db with users := Function.update db.users u { db.users u with username := some v } }
  | _ => db

/-- The store after a sequence of write requests. -/
def Db.writeAll (db : Db) (ws : List Write) : Db :=
  ws.foldl Db.write db

/-! ## Score submission -/

/-- The callback handed to the transaction on `users/{uid}/stats`. -/
def statsUpdate (score : JsNum) (stats : Option Stats) : Stats :=
  let stats := match stats with
    | none => (⟨some 0, some 0⟩ : Stats)
    | some s => s
  let stats := { stats with gamesPlayed := some (jsAdd (orZero stats.gamesPlayed) 1) }
  { stats with totalScore := some (jsAdd (orZero stats.totalScore) score) }

/-- What a call of a handler leaves behind. -/
structure Outcome where
  result : Except String Unit
  state : State
  writes : List Write
  ui : List Ui
  db : Db

/-- The function `submitScore(game, score, customName = null)`; `now` is `Date.now()` and
`game` is a store key, as the game identifiers `guess`, `memory` and `tictactoe` are. -/
def submitScore (st : State) (db : Db) (now : Nat) (game : String) (score : JsNum)
    (customName : Option String) : Outcome :=
  if !truthy st.uid then
    { result := .error "Not logged in", state := st, writes := [],
      ui := [.consoleWarn "User not logged in, cannot submit score"], db := db }
  else
    let payload : ScoreEntry :=
      { score := score
        name := orStr customName (orStr st.username "Joueur")
        userId := interp st.uid -- on this branch `state.uid` is a non-empty string
        ts := now }
    let writes := [Write.transaction ["users", interp st.uid, "stats"] (statsUpdate score),
                   Write.push ["leaderboards", game] payload]
    { result := .ok (), state := st, writes := writes, ui := [], db := db.writeAll writes }

/-! ## Pinned games -/

/-- The list read by `snapshot.val() || []` at `users/{uid}/pinnedGames`. -/
def storedPinned (db : Db) (uid : String) : List String :=
  ((db.users uid).pinnedGames).getD []

/-- The function `togglePin(game, btn)`. -/
def togglePin (st : State) (db : Db) (game : String) : Outcome :=
  if !truthy st.uid then
    { result := .ok (), state := st, writes := [], ui := [], db := db }
  else
    let pinRef : Path := ["users", interp st.uid, "pinnedGames"]
    let pinned := storedPinned db (interp st.uid)
    let index := jsIndexOf pinned game
    if index > -1 then
      let pinned := pinned.eraseIdx index.toNat
      let writes := [Write.set pinRef pinned]
      { result := .ok (), state := { st with pinnedGames := pinned }, writes := writes,
        ui := [.classRemove "active"], db := db.writeAll writes }
    else if pinned.length ≥ 3 then
      { result := .ok (), state := st, writes := [],
        ui := [.alert "Vous ne pouvez épingler que 3 jeux maximum"], db := db }
    else
      let pinned := pinned ++ [game]
      let writes := [Write.set pinRef pinned]
      { result := .ok (), state := { st with pinnedGames := pinned }, writes := writes,
        ui := [.classAdd "active"], db := db.writeAll writes }

/-- A run of `togglePin` calls, one per game of the list, on the same session. -/
def togglePins (st : State) (db : Db) : List String → State × Db
  | [] => (st, db)
  | g :: gs => togglePins (togglePin st db g).state (togglePin st db g).db gs

/-! ## Notifications -/

/-- The replacement `escapeHtml` applies to one character. -/
def escapeChar (c : Char) : List Char :=
  if c = '&' then "&amp;".data
  else if c = '<' then "&lt;".data
  else if c = '>' then "&gt;".data
  else [c]

/-- The function `escapeHtml(s)`, on the string `String(s)`. -/
def escapeHtml (s : String) : String :=
  String.mk (s.data.flatMap escapeChar)

/-- The entities the replacement produces. -/
def entities : List (List Char) :=
  ["&amp;".data, "&lt;".data, "&gt;".data]

/-- The function `getNotificationText(notif)`. -/
def getNotificationText (notif : Notif) : String :=
  match notif.type with
  | some "friend_request" =>
      "<strong>" ++ escapeHtml (jsString notif.fromUsername) ++ "</strong> vous a envoyé une demande d'ami"
  | some "friend_accepted" =>
      "<strong>" ++ escapeHtml (jsString notif.fromUsername) ++ "</strong> a accepté votre demande d'ami"
  | some "new_message" =>
      "<strong>" ++ escapeHtml (jsString notif.fromUsername) ++ "</strong> vous a envoyé un message"
  | some "game_invite" =>
      "<strong>" ++ escapeHtml (jsString notif.fromUsername) ++ "</strong> vous invite à jouer"
  | some "group_message" => "Nouveau message dans un groupe"
  | _ => "Nouvelle notification"

/-- The five notification types the lookup tables know. -/
def knownTypes : List String :=
  ["friend_request", "friend_accepted", "new_message", "game_invite", "group_message"]

/-- The value of a property read on an object literal whose own values are strings. -/
inductive JsProp where
  | undefined
  | str (s : String)
  | inherited (name : String)
  deriving DecidableEq, Repr

/-- The property names every object literal inherits from `Object.prototype`. -/
def objectPrototypeKeys : List String :=
  ["constructor", "__proto__", "hasOwnProperty", "isPrototypeOf", "propertyIsEnumerable",
   "toLocaleString", "toString", "valueOf", "__defineGetter__", "__defineSetter__",
   "__lookupGetter__", "__lookupSetter__"]

/-- The read `obj[key]` on an object literal: own properties first, then the prototype. -/
def getProp (own : List (String × String)) (key : String) : JsProp :=
  match own.lookup key with
  | some v => .str v
  | none => if key ∈ objectPrototypeKeys then .inherited key else .undefined

/-- The expression `p || d` where `d` is a string: only `undefined` and `""` are falsy. -/
def JsProp.orStr (p : JsProp) (d : String) : JsProp :=
  match p with
  | .undefined => .str d
  | .str s => if s != "" then .str s else .str d
  | .inherited k => .inherited k

/-- Interpolation of a property value inside a template literal. -/
def JsProp.interp : JsProp → String
  | .undefined => "undefined"
  | .str s => s
  | .inherited k =>
      if k = "__proto__" then "[object Object]"
      else if k = "constructor" then "function Object() \x7b [native code] \x7d"
      else "function " ++ k ++ "() \x7b [native code] \x7d"

/-- The object literal `icons` of `loadNotifications`. -/
def icons : List (String × String) :=
  [("friend_request", "👥"), ("friend_accepted", "✅"), ("new_message", "💬"),
   ("game_invite", "🎮"), ("group_message", "💬")]

/-- The expression `icons[notif.type] || '📢'`. -/
def notifIcon (type : Option String) : JsProp :=
  (getProp icons (jsString type)).orStr "📢"

/-- The template of one notification; `fmt t` is `new Date(t).toLocaleString('fr-FR')`. -/
def renderNotif (fmt : Option Nat → String) (notif : Notif) : String :=
  "\n        <div class=\"notif-item " ++ (if notif.read = some true then "" else "unread") ++ "\">"
  ++ "\n          <span class=\"notif-icon\">" ++ (notifIcon notif.type).interp ++ "</span>"
  ++ "\n          <div class=\"notif-content\">"
  ++ "\n            <div class=\"notif-text\">" ++ getNotificationText notif ++ "</div>"
  ++ "\n            <div class=\"notif-time\">" ++ fmt notif.timestamp ++ "</div>"
  ++ "\n          </div>"
  ++ "\n        </div>"
  ++ "\n      "

/-- The assignment `obj[key] = value` on an object kept as its list of entries. -/
def objSet (obj : List (Path × Bool)) (key : Path) (value : Bool) : List (Path × Bool) :=
  if obj.any (fun e => e.1 == key) then obj.map (fun e => if e.1 = key then (key, value) else e)
  else obj ++ [(key, value)]

/-- The path `notifications/{state.uid}/{notif.id}/read`. -/
def readPath (uid : Option String) (id : String) : Path :=
  ["notifications", interp uid, id, "read"]

/-- The object `updates` built by the loop "Mark all as read". -/
def readUpdates (uid : Option String) (notifs : List Notif) : List (Path × Bool) :=
  notifs.foldl
    (fun updates notif =>
      if notif.read = some true then updates else objSet updates (readPath uid notif.id) true)
    []

/-- The order of `orderByChild('timestamp')` on two timestamps; a missing one comes first. -/
def tsLe : Option Nat → Option Nat → Bool
  | none, _ => true
  | some _, none => false
  | some a, some b => a ≤ b

/-- The order of `orderByChild('timestamp')` on two children: timestamp, then key, in the
order `keyLe` of the store on keys. -/
def childLe (keyLe : String → String → Bool) (a b : NotifChild) : Prop :=
  if a.timestamp = b.timestamp then keyLe a.key b.key = true
  else tsLe a.timestamp b.timestamp = true

instance (keyLe : String → String → Bool) : DecidableRel (childLe keyLe) := fun a b => by
  unfold childLe; exact inferInstance

/-- The store query `orderByChild('timestamp').limitToLast(20)` on the children of a node:
the children by ascending timestamp, then key, cut down to the last 20. -/
def queryLast20 (keyLe : String → String → Bool) (children : List NotifChild) :
    List NotifChild :=
  let sorted := children.insertionSort (childLe keyLe)
  sorted.drop (sorted.length - 20)

/-- The object `{ id: child.key, ...child.val() }`. -/
def toNotif (c : NotifChild) : Notif :=
  ⟨c.key, c.type, c.fromUsername, c.timestamp, c.read⟩

/-- The unread ones among the notifications of a call. -/
def unread (notifs : List Notif) : List Notif :=
  notifs.filter (fun n => n.read ≠ some true)

/-- A stored notification `b` is the notification `a` with its read flag kept when set. -/
def KeepsRead (a b : NotifChild) : Prop :=
  b.key = a.key ∧ b.type = a.type ∧ b.fromUsername = a.fromUsername ∧
  b.timestamp = a.timestamp ∧ (a.read = some true → b.read = some true)

/-- What a call of `loadNotifications` leaves behind. -/
structure NotifView where
  state : State
  notifs : List Notif
  innerHTML : Option String
  writes : List Write

/-- The body of `loadNotifications` once the snapshot `notifSnap` has arrived. -/
def showNotifications (st : State) (fmt : Option Nat → String) (notifSnap : List NotifChild) :
    NotifView :=
  let notifs := (notifSnap.map toNotif).reverse
  if notifs.length = 0 then
    { state := st, notifs := notifs,
      innerHTML := some "<p class=\"empty-state\">Aucune notification</p>", writes := [] }
  else
    let html := String.join (notifs.map (renderNotif fmt))
    let updates := readUpdates st.uid notifs
    { state := st, notifs := notifs, innerHTML := some html,
      writes := if updates.length > 0 then [Write.update updates] else [] }

/-- The function `loadNotifications()`; `container` tells whether the list element exists. -/
def loadNotifications (st : State) (db : Db) (container : Bool) (fmt : Option Nat → String) :
    NotifView × Db :=
  if !container then ({ state := st, notifs := [], innerHTML := none, writes := [] }, db)
  else
    let notifSnap := queryLast20 db.keyLe (db.notifications (interp st.uid))
    let view := showNotifications st fmt notifSnap
    (view, db.writeAll view.writes)

/-- A run of `loadNotifications` calls, each with its session and its page. -/
def loadNotificationsSeq (fmt : Option Nat → String) (db : Db) : List (State × Bool) → Db
  | [] => db
  | (st, container) :: calls =>
      loadNotificationsSeq fmt (loadNotifications st db container fmt).2 calls

/-! ## Authentication -/

/-- An error thrown by the authentication service. -/
structure AuthError where
  code : String
  message : String
  deriving DecidableEq, Repr

/-- The object `{ success, error }` the sign-in functions resolve to. -/
structure AuthResult where
  success : Bool
  error : Option String
  deriving DecidableEq, Repr

/-- The object literal `errorMessages` of `getErrorMessage`. -/
def errorMessages : List (String × String) :=
  [("auth/email-already-in-use", "Cette adresse email est déjà utilisée"),
   ("auth/invalid-email", "Adresse email invalide"),
   ("auth/weak-password", "Le mot de passe doit faire au moins 6 caractères"),
   ("auth/user-not-found", "Aucun compte trouvé avec cette adresse"),
   ("auth/wrong-password", "Mot de passe incorrect"),
   ("auth/too-many-requests", "Trop de tentatives, réessayez plus tard")]

/-- The function `getErrorMessage(error)`. -/
def getErrorMessage (error : Option String) : JsProp :=
  (getProp errorMessages (jsString error)).orStr "Une erreur est survenue"

/-- The function `loginUser(email, password)`; `signIn` is what
`auth.signInWithEmailAndPassword` settles to. -/
def loginUser (signIn : Except AuthError Unit) : AuthResult :=
  match signIn with
  | .ok _ => { success := true, error := none }
  | .error error => { success := false, error := some error.message }

/-- The submit handler of the login form: the text left in `#login-error`. -/
def loginFormSubmit (signIn : Except AuthError Unit) : String :=
  let result := loginUser signIn
  if !result.success then (getErrorMessage result.error).interp else ""

/-- The profile `registerUser` writes at `users/{uid}`. -/
def registeredProfile (username email : String) (now : Nat) : Profile :=
  { Profile.empty with
    username := some username
    email := some email
    createdAt := some now
    stats := some ⟨some 0, some 0⟩ }

/-- The function `registerUser(email, password, username)`; `signUp` is what
`auth.createUserWithEmailAndPassword` settles to, `now` is `Date.now()`. -/
def registerUser (db : Db) (now : Nat) (signUp : Except AuthError User)
    (email username : String) : AuthResult × List Write × Db :=
  match signUp with
  | .ok user =>
      let writes := [Write.setProfile ["users", user.uid] (registeredProfile username email now)]
      ({ success := true, error := none }, writes, db.writeAll writes)
  | .error error => ({ success := false, error := some error.message }, [], db)

/-- The submit handler of the register form: the text left in `#register-error`, the writes
and the store. -/
def registerFormSubmit (db : Db) (now : Nat) (signUp : Except AuthError User)
    (username email password confirm : String) : String × List Write × Db :=
  if password ≠ confirm then ("Les mots de passe ne correspondent pas", [], db)
  else if jsLength username < 3 then ("Le pseudo doit faire au moins 3 caractères", [], db)
  else
    let result := registerUser db now signUp email username
    if !result.1.success then ((getErrorMessage result.1.error).interp, result.2)
    else ("", result.2)

/-- The test `snapshot.exists()` on `users/{uid}`. -/
def profileExists (db : Db) (uid : String) : Bool :=
  db.users uid != Profile.empty

/-- The expression `email.split('@')[0]`. -/
def beforeAt (email : String) : String :=
  String.mk (email.data.takeWhile (fun c => c != '@'))

/-- The expression `user.displayName || user.email.split('@')[0] || 'Joueur'`, which throws
when the display name is falsy and the email is `null`. -/
def socialUsername (user : User) : Except String String :=
  if truthy user.displayName then .ok (interp user.displayName)
  else match user.email with
    | none => .error "Cannot read properties of null (reading 'split')"
    | some email => .ok (orStr (some (beforeAt email)) "Joueur")

/-- The profile `handleSocialLogin` writes at `users/{uid}`. -/
def socialProfile (user : User) (username : String) (now : Nat) : Profile :=
  { Profile.empty with
    username := some username
    email := user.email
    photoURL := if truthy user.photoURL then user.photoURL else none
    provider := some user.providerId
    createdAt := some now
    stats := some ⟨some 0, some 0⟩ }

/-- The function `handleSocialLogin(user)`; `now` is `Date.now()`. -/
def handleSocialLogin (st : State) (db : Db) (now : Nat) (user : User) : Outcome :=
  if !profileExists db user.uid then
    match socialUsername user with
    | .error e => { result := .error e, state := st, writes := [], ui := [], db := db }
    | .ok username =>
        let writes := [Write.setProfile ["users", user.uid] (socialProfile user username now)]
        { result := .ok (), state := st, writes := writes, ui := [], db := db.writeAll writes }
  else
    { result := .ok (), state := st, writes := [], ui := [], db := db }

/-- The function `showAuthModal()`, as far as the session goes. -/
def showAuthModal (st : State) : State :=
  if st.showingAuth then st else { st with showingAuth := true }

/-- The function `hideAuthModal()`; `modal` tells whether the element `#auth-modal` exists. -/
def hideAuthModal (st : State) (modal : Bool) : State :=
  if modal then { st with showingAuth := false } else st

/-- The callback of `auth.onAuthStateChanged`; `modal` tells whether `#auth-modal` exists. -/
def onAuthStateChanged (st : State) (db : Db) (modal : Bool) (user : Option User) : State :=
  match user with
  | some user =>
      let st := { st with user := some user, uid := some user.uid }
      let st := { st with username := some (orStr (db.users user.uid).username "Joueur") }
      hideAuthModal st modal
  | none =>
      let st := { st with user := none, uid := none, username := none }
      showAuthModal st

/-! ## Favourite games -/

/-- The list read by `snapshot.val() || []` at `users/{uid}/favoriteGames`. -/
def storedFavorites (db : Db) (uid : String) : List String :=
  ((db.users uid).favoriteGames).getD []

/-- The function `toggleFavorite(game, btn)`. -/
def toggleFavorite (st : State) (db : Db) (game : String) : Outcome :=
  if !truthy st.uid then
    { result := .ok (), state := st, writes := [], ui := [], db := db }
  else
    let favRef : Path := ["users", interp st.uid, "favoriteGames"]
    let favorites := storedFavorites db (interp st.uid)
    let index := jsIndexOf favorites game
    if index > -1 then
      let favorites := favorites.eraseIdx index.toNat
      let writes := [Write.set favRef favorites]
      { result := .ok (), state := { st with favoriteGames := favorites }, writes := writes,
        ui := [.classRemove "active"], db := db.writeAll writes }
    else
      let favorites := favorites ++ [game]
      let writes := [Write.set favRef favorites]
      { result := .ok (), state := { st with favoriteGames := favorites }, writes := writes,
        ui := [.classAdd "active"], db := db.writeAll writes }

/-- A list of favourites with `game` taken out when it was there, put at the end
otherwise. -/
def toggled (favorites : List String) (game : String) : List String :=
  if game ∈ favorites then favorites.erase game else favorites ++ [game]

/-- The function `loadGamePreferences()`, as far as the session goes. -/
def loadGamePreferences (st : State) (db : Db) : State :=
  if !truthy st.uid then st
  else
    let userData := db.users (interp st.uid)
    { st with
      favoriteGames := userData.favoriteGames.getD []
      pinnedGames := userData.pinnedGames.getD [] }

/-! ## Friends and chats -/

/-- The local object `{ id: child.key, ...child.val() }` of a child of `friends/{uid}`. -/
structure Friend where
  id : String
  username : Option String
  status : Option String
  deriving DecidableEq, Repr

/-- The class attribute of the presence element: `friend-status ${friend.status || 'offline'}`. -/
def friendStatusClass (status : Option String) : String :=
  "friend-status " ++ orStr status "offline"

/-- The text of the presence element:
`friend.status === 'online' ? '🟢 En ligne' : '⚫ Hors ligne'`. -/
def friendStatusLabel (status : Option String) : String :=
  if status = some "online" then "🟢 En ligne" else "⚫ Hors ligne"

/-- The presence element of a friend. -/
def friendStatusDiv (status : Option String) : String :=
  "<div class=\"" ++ friendStatusClass status ++ "\">" ++ friendStatusLabel status ++ "</div>"

/-- The template of one friend in `loadFriendsList`. -/
def renderFriend (friend : Friend) : String :=
  "\n      <div class=\"friend-item\">"
  ++ "\n        <div class=\"friend-info\">"
  ++ "\n          <div class=\"friend-avatar\">👤</div>"
  ++ "\n          <div class=\"friend-details\">"
  ++ "\n            <div class=\"friend-name\">" ++ escapeHtml (jsString friend.username) ++ "</div>"
  ++ "\n            " ++ friendStatusDiv friend.status
  ++ "\n          </div>"
  ++ "\n        </div>"
  ++ "\n        <div class=\"friend-actions\">"
  ++ "\n          <button class=\"btn-icon\" onclick=\"window.openChat('" ++ friend.id
  ++ "')\" title=\"Envoyer un message\">💬</button>"
  ++ "\n          <button class=\"btn-icon\" onclick=\"window.sendGameInvite('" ++ friend.id
  ++ "', 'tictactoe')\" title=\"Inviter à jouer\">🎮</button>"
  ++ "\n        </div>"
  ++ "\n      </div>"
  ++ "\n    "

/-- The function `loadFriendsList()` once the snapshot has arrived: the session, to which it
assigns nothing, and the markup left in the container, if the container exists. -/
def loadFriendsList (st : State) (container : Bool) (friends : List Friend) :
    State × Option String :=
  if !container then (st, none)
  else if friends.length = 0 then
    (st, some "<p class=\"empty-state\">Aucun ami pour le moment</p>")
  else (st, some (String.join (friends.map renderFriend)))

/-- The node `lastMessage` of a chat; the text is kept as its UTF-16 code units. -/
structure LastMessage where
  text : Option (List Nat)
  timestamp : Option Nat
  deriving DecidableEq, Repr

/-- A conversation as `getUserChats()` hands it over; a participant is kept as its
`username`. -/
structure Chat where
  id : String
  participants : Option (List (String × Option String))
  lastMessage : Option LastMessage
  deriving DecidableEq, Repr

/-- The expression `text.substring(0, 50)`: the first 50 code units. -/
def substring50 (text : List Nat) : List Nat :=
  text.take 50

/-- The expression `chat.lastMessage?.text?.substring(0, 50) || ''`. -/
def chatPreview (chat : Chat) : List Nat :=
  match (chat.lastMessage.bind LastMessage.text).map substring50 with
  | some preview => if preview.length = 0 then [] else preview
  | none => []

/-- The expression `otherParticipant?.username || 'Conversation'`, where `otherParticipant`
is the first participant whose id is not `state.uid`. -/
def chatName (st : State) (chat : Chat) : String :=
  let otherParticipant := ((chat.participants.getD []).find? (fun e => some e.1 != st.uid))
  orStr (otherParticipant.bind Prod.snd) "Conversation"

/-- What `showChatsModal` works out for one conversation, before it is escaped and put in
the markup. -/
structure ChatLine where
  id : String
  name : String
  preview : List Nat
  time : Nat
  deriving DecidableEq, Repr

/-- The values `showChatsModal` places in the item of a conversation. -/
def chatLine (st : State) (chat : Chat) : ChatLine :=
  { id := chat.id
    name := chatName st chat
    preview := chatPreview chat
    time := (chat.lastMessage.bind LastMessage.timestamp).getD 0 }

/-- The function `showChatsModal()` once `getUserChats()` has answered: the session, to
which it assigns nothing, and the lines of the list. -/
def showChatsModal (st : State) (chats : List Chat) : State × List ChatLine :=
  (st, chats.map (chatLine st))

/-! ## Profile -/

/-- The white space and line terminators `trim` strips. -/
def jsWhitespace (c : Char) : Bool :=
  c = ' ' || c = '\t' || c = '\n' || c = '\r' || c.val = 0x0B || c.val = 0x0C ||
  c.val = 0xA0 || c.val = 0x1680 || (0x2000 ≤ c.val && c.val ≤ 0x200A) ||
  c.val = 0x2028 || c.val = 0x2029 || c.val = 0x202F || c.val = 0x205F ||
  c.val = 0x3000 || c.val = 0xFEFF

/-- The method `s.trim()`. -/
def jsTrim (s : String) : String :=
  String.mk ((s.data.dropWhile jsWhitespace).reverse.dropWhile jsWhitespace).reverse

/-- The click handler of `#save-username`; `input` is the value of `#new-username`. -/
def saveUsername (st : State) (db : Db) (input : String) : Outcome :=
  let newUsername := jsTrim input
  if jsLength newUsername < 3 then
    { result := .ok (), state := st, writes := [],
      ui := [.setText "username-error" "Le pseudo doit faire au moins 3 caractères"], db := db }
  else
    let writes := [Write.setString ["users", interp st.uid, "username"] newUsername]
    { result := .ok (), state := { st with username := some newUsername }, writes := writes,
      ui := [.setText ".status-text" newUsername], db := db.writeAll writes }

/-! ## The session -/

/-- The operations of the file that run against the session and the store. -/
inductive Action where
  | authStateChanged (modal : Bool) (user : Option User)
  | handleSocialLogin (now : Nat) (user : User)
  | showAuthModal
  | hideAuthModal (modal : Bool)
  | submitScore (now : Nat) (game : String) (score : JsNum) (customName : Option String)
  | togglePin (game : String)
  | toggleFavorite (game : String)
  | loadGamePreferences
  | loadNotifications (container : Bool)
  | loadFriendsList (container : Bool) (friends : List Friend)
  | showChatsModal (chats : List Chat)
  | saveUsername (input : String)

/-- The session and the store after an operation. -/
def Action.run (fmt : Option Nat → String) (st : State) (db : Db) : Action → State × Db
  | .authStateChanged modal user => (onAuthStateChanged st db modal user, db)
  | .handleSocialLogin now user =>
      ((GameHub.handleSocialLogin st db now user).state, (GameHub.handleSocialLogin st db now user).db)
  | .showAuthModal => (GameHub.showAuthModal st, db)
  | .hideAuthModal modal => (GameHub.hideAuthModal st modal, db)
  | .submitScore now game score customName =>
      ((GameHub.submitScore st db now game score customName).state,
       (GameHub.submitScore st db now game score customName).db)
  | .togglePin game => ((GameHub.togglePin st db game).state, (GameHub.togglePin st db game).db)
  | .toggleFavorite game =>
      ((GameHub.toggleFavorite st db game).state, (GameHub.toggleFavorite st db game).db)
  | .loadGamePreferences => (GameHub.loadGamePreferences st db, db)
  | .loadNotifications container =>
      ((GameHub.loadNotifications st db container fmt).1.state,
       (GameHub.loadNotifications st db container fmt).2)
  | .loadFriendsList container friends => ((GameHub.loadFriendsList st container friends).1, db)
  | .showChatsModal chats => ((GameHub.showChatsModal st chats).1, db)
  | .saveUsername input => ((GameHub.saveUsername st db input).state, (GameHub.saveUsername st db input).db)

/-- The stats after the transaction callback of `submitScore` has run once per score. -/
def statsAfter (stats : Option Stats) (scores : List JsNum) : Option Stats :=
  scores.foldl (fun s score => some (statsUpdate score s)) stats

/-- A run of `submitScore` calls on the same session, one per score. -/
def submitScores (st : State) (db : Db) (now : Nat) (game : String) : List JsNum → Db
  | [] => db
  | score :: scores =>
      submitScores st (submitScore st db now game score none).db now game scores

/-! ## Example data -/

/-- The session of the example scenario: user `u1`, named Alice. -/
def aliceSession : State :=
  ⟨none, some "u1", some "Alice", false, [], []⟩

/-- A signed-out session. -/
def guestSession : State :=
  ⟨none, none, none, false, [], []⟩

/-- Three notifications of `u1`: one without timestamp, one unread, one read. -/
def aliceNotifications : List NotifChild :=
  [⟨"n0", none, none, none, some false⟩,
   ⟨"n1", some "friend_request", some "Bob", some 5, none⟩,
   ⟨"n2", some "new_message", some "Bob", some 7, some true⟩]

/-- A store where `u1` has played 3 games for a total of 100 and pinned three games. -/
def aliceDb : Db :=
  { users := fun u =>
      if u = "u1" then
        { Profile.empty with stats := some ⟨some 3, some 100⟩, pinnedGames := some ["a", "b", "c"] }
      else Profile.empty
    leaderboards := fun _ => []
    notifications := fun u => if u = "u1" then aliceNotifications else []
    keyLe := fun a b => decide (a ≤ b) }

/-- A store where the total score of `u1` has reached `2 ^ 53`. -/
def bigDb : Db :=
  { aliceDb with
    users := fun u =>
      if u = "u1" then { Profile.empty with stats := some ⟨some 3, some (.fin (2 ^ 53))⟩ }
      else Profile.empty }

/-- The fetched list of one notification that was already read. -/
def readSnapshot : List NotifChild :=
  [⟨"n2", some "new_message", some "Bob", some 7, some true⟩]

/-- The date formatter used in the examples. -/
def isoDate : Option Nat → String
  | none => "Invalid Date"
  | some t => toString t

/-- The failed sign-in with a wrong password, with the message of the service. -/
def wrongPassword : AuthError :=
  ⟨"auth/wrong-password", "The password is invalid or the user does not have a password."⟩

/-- The failed sign-up with an address already registered, with the message of the service. -/
def emailInUse : AuthError :=
  ⟨"auth/email-already-in-use", "The email address is already in use by another account."⟩

/-- A federated user the provider gave neither a display name nor an email. -/
def namelessUser : User :=
  ⟨"u2", none, none, none, "facebook.com"⟩

/-- A federated user with a display name. -/
def bobUser : User :=
  ⟨"u3", some "Bob", some "bob@example.org", none, "google.com"⟩

/-- The session of `bobUser` once signed in. -/
def bobSession : State :=
  ⟨some bobUser, some "u3", some "Bob", false, [], []⟩

/-- The store right after `bobUser` has registered. -/
def bobDb : Db :=
  (registerUser aliceDb 0 (.ok bobUser) "bob@example.org" "Bob").2.2

/-- A store where `u1` has two favourite games. -/
def favDb : Db :=
  { aliceDb with
    users := fun u =>
      if u = "u1" then { Profile.empty with favoriteGames := some ["memory", "guess"] }
      else Profile.empty }

/-! ## Numbers: properties -/

theorem roundHalfEven_intCast (z : ℤ) : roundHalfEven (z : ℚ) = z := by
  simp [roundHalfEven]

/-- The bounds that pin down the logarithm of a positive rational. -/
theorem log_two_eq {a : ℚ} {L : ℤ} (h₁ : (2 : ℚ) ^ L ≤ a) (h₂ : a < (2 : ℚ) ^ (L + 1)) :
    Int.log 2 a = L := by
  have ha : 0 < a := lt_of_lt_of_le (zpow_pos (by norm_num) L) h₁
  apply le_antisymm
  · have := (Int.lt_zpow_iff_log_lt (R := ℚ) (b := 2) (by norm_num) (x := L + 1) ha).mp
      (by simpa using h₂)
    omega
  · exact (Int.zpow_le_iff_le_log (R := ℚ) (b := 2) (by norm_num) ha).mp (by simpa using h₁)

/-- A positive rational that is a whole number of units in the last place is its own
rounding. -/
theorem roundMagnitude_of_int {a : ℚ} (z : ℤ) (h : a / 2 ^ ulpExponent a = z) :
    roundMagnitude a = a := by
  unfold roundMagnitude
  rw [h, roundHalfEven_intCast, ← h]
  have : (2 : ℚ) ^ ulpExponent a ≠ 0 := zpow_ne_zero _ (by norm_num)
  field_simp

/-- A positive integer up to `2 ^ 53` is its own rounding. -/
theorem roundMagnitude_natCast (n : ℕ) (hpos : 0 < n) (hle : n ≤ 2 ^ 53) :
    roundMagnitude (n : ℚ) = n := by
  have ha : (0 : ℚ) < n := by exact_mod_cast hpos
  have hlog0 : 0 ≤ Int.log 2 (n : ℚ) := by
    apply (Int.zpow_le_iff_le_log (R := ℚ) (b := 2) (by norm_num) ha).mp
    simp only [zpow_zero]
    exact_mod_cast hpos
  have hlog : Int.log 2 (n : ℚ) ≤ 53 := by
    have := (Int.lt_zpow_iff_log_lt (R := ℚ) (b := 2) (by norm_num) (x := 54) ha).mp (by
      have : (n : ℚ) ≤ 2 ^ 53 := by exact_mod_cast hle
      calc (n : ℚ) ≤ 2 ^ 53 := this
        _ < ((2 : ℕ) : ℚ) ^ (54 : ℤ) := by norm_num)
    omega
  have he : ulpExponent (n : ℚ) = Int.log 2 (n : ℚ) - 52 := by
    unfold ulpExponent
    omega
  rcases Nat.lt_or_ge (Int.log 2 (n : ℚ)).toNat 53 with hlt | hge
  · -- the exponent is at most 0
    obtain ⟨k, hk⟩ : ∃ k : ℕ, ulpExponent (n : ℚ) = -(k : ℤ) :=
      ⟨(52 - Int.log 2 (n : ℚ)).toNat, by rw [he]; omega⟩
    apply roundMagnitude_of_int ((n * 2 ^ k : ℕ) : ℤ)
    rw [hk, zpow_neg, zpow_natCast]
    push_cast
    field_simp
  · -- the logarithm is 53, so the integer is `2 ^ 53`
    have h53 : Int.log 2 (n : ℚ) = 53 := by omega
    have hge' : (2 : ℚ) ^ (53 : ℤ) ≤ n := by
      have := Int.zpow_log_le_self (R := ℚ) (b := 2) (by norm_num) ha
      rw [h53] at this
      simpa using this
    have hn : n = 2 ^ 53 := by
      apply le_antisymm hle
      have h2 : ((2 ^ 53 : ℕ) : ℚ) ≤ n := by
        norm_num at hge' ⊢
        exact hge'
      exact_mod_cast h2
    apply roundMagnitude_of_int ((2 ^ 52 : ℕ) : ℤ)
    rw [he, h53, hn]
    norm_num

/-- An integer of magnitude up to `2 ^ 53` is a double. -/
theorem roundDouble_intCast (n : ℤ) (h : |n| ≤ 2 ^ 53) : roundDouble (n : ℚ) = .fin n := by
  unfold roundDouble
  by_cases h0 : n = 0
  · simp [h0]
  · have hq : (n : ℚ) ≠ 0 := by exact_mod_cast h0
    rw [if_neg hq]
    have habs : |(n : ℚ)| = ((n.natAbs : ℕ) : ℚ) := by
      rw [Nat.cast_natAbs, Int.cast_abs]
    have hpos : 0 < n.natAbs := Int.natAbs_pos.mpr h0
    have hle : n.natAbs ≤ 2 ^ 53 := by
      have : ((n.natAbs : ℕ) : ℤ) ≤ 2 ^ 53 := by rw [← Int.abs_eq_natAbs]; exact h
      exact_mod_cast this
    have hr : roundMagnitude |(n : ℚ)| = |(n : ℚ)| := by
      rw [habs]
      exact roundMagnitude_natCast _ hpos hle
    rw [hr]
    have hsmall : ¬ (2 : ℚ) ^ 1024 ≤ |(n : ℚ)| := by
      rw [habs, not_le]
      have : ((n.natAbs : ℕ) : ℚ) ≤ 2 ^ 53 := by exact_mod_cast hle
      calc ((n.natAbs : ℕ) : ℚ) ≤ 2 ^ 53 := this
        _ < 2 ^ 1024 := by norm_num
    rw [if_neg hsmall]
    by_cases hs : (0 : ℚ) < n
    · rw [if_pos hs, abs_of_pos hs]
    · rw [if_neg hs]
      have : (n : ℚ) ≤ 0 := not_lt.mp hs
      rw [abs_of_nonpos this, neg_neg]


theorem roundHalfEven_nonneg {x : ℚ} (hx : 0 ≤ x) : 0 ≤ roundHalfEven x := by
  have hf : 0 ≤ ⌊x⌋ := Int.floor_nonneg.mpr hx
  unfold roundHalfEven
  split
  · exact hf
  · split
    · omega
    · split <;> omega

theorem roundMagnitude_nonneg {a : ℚ} (ha : 0 ≤ a) : 0 ≤ roundMagnitude a := by
  unfold roundMagnitude
  have h2 : (0 : ℚ) < 2 ^ ulpExponent a := zpow_pos (by norm_num) _
  have hx : 0 ≤ a / 2 ^ ulpExponent a := div_nonneg ha h2.le
  have : (0 : ℚ) ≤ (roundHalfEven (a / 2 ^ ulpExponent a) : ℚ) := by
    exact_mod_cast roundHalfEven_nonneg hx
  exact mul_nonneg this h2.le

/-- The rounding of a rational that is not negative is not negative. -/
theorem roundDouble_nonneg {q : ℚ} (hq : 0 ≤ q) : (roundDouble q).Nonneg := by
  unfold roundDouble
  split
  · exact le_refl (0 : ℚ)
  · next h0 =>
    have hpos : 0 < q := lt_of_le_of_ne hq (Ne.symm h0)
    rw [if_pos hpos, if_pos hpos]
    split
    · trivial
    · exact roundMagnitude_nonneg (abs_nonneg q)

/-- The sum of two numbers that are not negative is not negative. -/
theorem jsAdd_nonneg {a b : JsNum} (ha : a.Nonneg) (hb : b.Nonneg) : (jsAdd a b).Nonneg := by
  cases a <;> cases b <;> simp_all [JsNum.Nonneg, jsAdd]
  exact roundDouble_nonneg (add_nonneg ha hb)

/-- Adding a double to `0` gives the double. -/
theorem jsAdd_zero_left {a : JsNum} (ha : a.IsDouble) : jsAdd (.fin 0) a = a := by
  cases a <;> simp_all [JsNum.IsDouble, jsAdd]

/-- The sum of two integers is exact when it stays within `2 ^ 53`. -/
theorem jsAdd_intCast (m n : ℤ) (h : |m + n| ≤ 2 ^ 53) :
    jsAdd (.fin m) (.fin n) = .fin ((m + n : ℤ) : ℚ) := by
  have := roundDouble_intCast (m + n) h
  simpa [jsAdd] using this

/-- With the logarithm known, the rounding is a matter of arithmetic. -/
theorem roundMagnitude_eq {a : ℚ} {L : ℤ} (h₁ : (2 : ℚ) ^ L ≤ a) (h₂ : a < (2 : ℚ) ^ (L + 1)) :
    roundMagnitude a =
      (roundHalfEven (a / 2 ^ max (L - 52) (-1074)) : ℚ) * 2 ^ max (L - 52) (-1074) := by
  unfold roundMagnitude ulpExponent
  rw [log_two_eq h₁ h₂]

/-- The integer `2 ^ 53 + 1` is not a double: it rounds to `2 ^ 53`. -/
theorem roundDouble_two_pow_53_add_one :
    roundDouble (2 ^ 53 + 1) = .fin (2 ^ 53) := by
  have hr : roundMagnitude (2 ^ 53 + 1) = 2 ^ 53 := by
    rw [roundMagnitude_eq (L := 53) (by norm_num) (by norm_num)]
    have hfl : ⌊((2 : ℚ) ^ 53 + 1) / 2 ^ max ((53 : ℤ) - 52) (-1074)⌋ = 2 ^ 52 := by
      rw [Int.floor_eq_iff]
      norm_num
    simp only [roundHalfEven, hfl]
    norm_num
  have habs : |((2 : ℚ) ^ 53 + 1)| = 2 ^ 53 + 1 := abs_of_pos (by norm_num)
  unfold roundDouble
  rw [habs, hr]
  norm_num

/-! ## Score submission: properties -/

theorem truthy_some {u : String} (h : u ≠ "") : truthy (some u) = true := by
  simp [truthy, h]

theorem jsNum_natLit (n : ℕ) : (OfNat.ofNat n : JsNum) = .fin (n : ℚ) := rfl

theorem orZero_intCast (z : ℤ) : orZero (some (.fin z)) = .fin z := by
  by_cases h : z = 0
  · subst h
    simp [orZero, jsNum_natLit]
  · have : (z : ℚ) ≠ 0 := by exact_mod_cast h
    simp [orZero, this]

/-- What `x || 0` makes of a field that holds an integer or is missing. -/
theorem orZero_map_ofInt (z : Option ℤ) :
    orZero (z.map JsNum.ofInt) = .ofInt (z.getD 0) := by
  cases z with
  | none => simp [orZero, jsNum_natLit, JsNum.ofInt]
  | some n => simpa [JsNum.ofInt] using orZero_intCast n

/-- C1 as stated fails: from the stats `{3, 2 ^ 53}` the score `1` leaves the total at
`2 ^ 53`, which is not `2 ^ 53 + 1`. -/
theorem submitScore_total_rounded :
    (bigDb.users "u1").stats = some ⟨some 3, some (.fin (2 ^ 53))⟩ ∧
    ((submitScore aliceSession bigDb 0 "memory" 1 none).db.users "u1").stats =
      some ⟨some 4, some (.fin (2 ^ 53))⟩ ∧
    JsNum.fin (2 ^ 53) ≠ .fin (2 ^ 53 + 1) := by
  refine ⟨by simp [bigDb], ?_, by norm_num⟩
  have h4 : jsAdd (.fin 3) (.fin 1) = .fin 4 := by
    have := jsAdd_intCast 3 1 (by norm_num)
    norm_num at this
    exact this
  have hbig : jsAdd (.fin (2 ^ 53)) (.fin 1) = .fin (2 ^ 53) := by
    simp only [jsAdd]
    exact roundDouble_two_pow_53_add_one
  have h3 : orZero (some (JsNum.fin 3)) = .fin 3 := by
    simpa using orZero_intCast 3
  have hb : orZero (some (JsNum.fin (2 ^ 53))) = .fin (2 ^ 53) := by
    simpa using orZero_intCast (2 ^ 53)
  simp [submitScore, aliceSession, truthy, interp, Db.writeAll, Db.write, bigDb, statsUpdate,
    jsNum_natLit, h3, hb, h4, hbig]

/-- C1, as the code has it: for an authenticated session, `submitScore` replaces the stored
stats `{g, t}` by `{g ⊕ 1, t ⊕ score}`, where `⊕` is the sum of doubles and a missing
record, or a field that is missing, `0` or `NaN`, counts as `0`; for integers `g`, `t` and
`score` with `|g + 1|` and `|t + score|` up to `2 ^ 53` that is `{g + 1, t + score}`
exactly, and with no stats record it is `{1, score}`. -/
theorem submitScore_stats (st : State) (db : Db) (now : Nat) (game : String) (score : JsNum)
    (customName : Option String) (uid : String) (huid : st.uid = some uid) (hne : uid ≠ "") :
    ((submitScore st db now game score customName).db.users uid).stats =
      some ⟨some (jsAdd (orZero ((db.users uid).stats.bind Stats.gamesPlayed)) 1),
            some (jsAdd (orZero ((db.users uid).stats.bind Stats.totalScore)) score)⟩ ∧
    (∀ (g t : Option ℤ) (s : ℤ),
      (db.users uid).stats = some ⟨g.map JsNum.ofInt, t.map JsNum.ofInt⟩ →
      score = .ofInt s → |g.getD 0 + 1| ≤ 2 ^ 53 → |t.getD 0 + s| ≤ 2 ^ 53 →
      ((submitScore st db now game score customName).db.users uid).stats =
        some ⟨some (.ofInt (g.getD 0 + 1)), some (.ofInt (t.getD 0 + s))⟩) ∧
    ((db.users uid).stats = none → score.IsDouble →
      ((submitScore st db now game score customName).db.users uid).stats =
        some ⟨some 1, some score⟩) := by
  have ht : truthy (some uid) = true := truthy_some hne
  have hstats : ((submitScore st db now game score customName).db.users uid).stats =
      some ⟨some (jsAdd (orZero ((db.users uid).stats.bind Stats.gamesPlayed)) 1),
            some (jsAdd (orZero ((db.users uid).stats.bind Stats.totalScore)) score)⟩ := by
    simp only [submitScore, huid, ht, Bool.not_true, Bool.false_eq_true, if_false, interp,
      Db.writeAll, List.foldl, Db.write, Function.update_same]
    cases h : (db.users uid).stats with
    | none => simp [statsUpdate, orZero]
    | some s => simp [statsUpdate]
  refine ⟨hstats, ?_, ?_⟩
  · intro g t s hdb hs hg hts
    have h1 : jsAdd (.ofInt (g.getD 0)) 1 = .ofInt (g.getD 0 + 1) := by
      have := jsAdd_intCast (g.getD 0) 1 hg
      simpa [JsNum.ofInt, jsNum_natLit] using this
    have h2 : jsAdd (.ofInt (t.getD 0)) (.ofInt s) = .ofInt (t.getD 0 + s) :=
      jsAdd_intCast (t.getD 0) s hts
    rw [hstats, hdb, hs]
    simp only [Option.some_bind, orZero_map_ofInt, h1, h2]
  · intro hdb hs
    have h1 : jsAdd (.fin 0) 1 = 1 := by
      have := jsAdd_intCast 0 1 (by norm_num)
      simpa [jsNum_natLit] using this
    rw [hstats, hdb]
    simp only [Option.none_bind, orZero, jsNum_natLit, Nat.cast_zero]
    rw [jsAdd_zero_left hs]
    simp only [← jsNum_natLit, h1]

theorem submitScore_stats_witness :
    (aliceSession.uid = some "u1" ∧ "u1" ≠ "") ∧
    ((submitScore aliceSession aliceDb 0 "memory" 42 none).db.users "u1").stats =
      some ⟨some 4, some 142⟩ :=
  ⟨⟨rfl, by decide⟩, by
    have h := (submitScore_stats aliceSession aliceDb 0 "memory" 42 none "u1" rfl
      (by decide)).2.1 (some 3) (some 100) 42
      (by simp [aliceDb, Profile.empty, jsNum_natLit, JsNum.ofInt])
      (by simp [jsNum_natLit, JsNum.ofInt]) (by norm_num) (by norm_num)
    rw [h]
    simp [jsNum_natLit, JsNum.ofInt]⟩

/-- C2: when the session has no user id (`null`, or the empty string, which is falsy too),
`submitScore` is rejected with `Not logged in`, issues no write and leaves the store as it was. -/
theorem submitScore_not_logged_in (st : State) (db : Db) (now : Nat) (game : String)
    (score : JsNum) (customName : Option String) (h : st.uid = none ∨ st.uid = some "") :
    (submitScore st db now game score customName).result = .error "Not logged in" ∧
    (submitScore st db now game score customName).writes = [] ∧
    (submitScore st db now game score customName).db = db ∧
    (submitScore st db now game score customName).state = st := by
  rcases h with h | h <;> simp [submitScore, h, truthy]

theorem submitScore_not_logged_in_witness :
    (guestSession.uid = none ∨ guestSession.uid = some "") ∧
    (submitScore guestSession aliceDb 0 "memory" 42 none).result = .error "Not logged in" ∧
    (submitScore guestSession aliceDb 0 "memory" 42 none).writes = [] ∧
    (submitScore guestSession aliceDb 0 "memory" 42 none).db = aliceDb ∧
    (submitScore guestSession aliceDb 0 "memory" 42 none).state = guestSession :=
  ⟨Or.inl rfl, submitScore_not_logged_in guestSession aliceDb 0 "memory" 42 none (Or.inl rfl)⟩

/-- C3: for an authenticated session, `submitScore(game, score)` succeeds and the leaderboard
of `game` becomes the former one followed by exactly one new entry, so that every former
entry is still there, unchanged and at the same place; the leaderboard of every other game
is unchanged. -/
theorem submitScore_appends (st : State) (db : Db) (now : Nat) (game : String) (score : JsNum)
    (customName : Option String) (uid : String) (huid : st.uid = some uid) (hne : uid ≠ "") :
    (submitScore st db now game score customName).result = .ok () ∧
    (∃ e, (submitScore st db now game score customName).db.leaderboards game =
        db.leaderboards game ++ [e]) ∧
    (∀ i, i < (db.leaderboards game).length →
        ((submitScore st db now game score customName).db.leaderboards game)[i]? =
          (db.leaderboards game)[i]?) ∧
    (∀ g, g ≠ game →
        (submitScore st db now game score customName).db.leaderboards g = db.leaderboards g) := by
  have ht : truthy (some uid) = true := truthy_some hne
  simp only [submitScore, huid, ht, Bool.not_true, Bool.false_eq_true, if_false, interp,
    Db.writeAll, List.foldl, Db.write, Function.update_same]
  refine ⟨trivial, ⟨_, rfl⟩, ?_, ?_⟩
  · intro i hi
    exact List.getElem?_append_left hi
  · intro g hg
    simp [Function.update, hg]

theorem submitScore_appends_witness :
    (aliceSession.uid = some "u1" ∧ "u1" ≠ "") ∧
    (submitScore aliceSession aliceDb 0 "memory" 42 none).result = .ok () ∧
    (∃ e, (submitScore aliceSession aliceDb 0 "memory" 42 none).db.leaderboards "memory" =
        aliceDb.leaderboards "memory" ++ [e]) ∧
    (∀ i, i < (aliceDb.leaderboards "memory").length →
        ((submitScore aliceSession aliceDb 0 "memory" 42 none).db.leaderboards "memory")[i]? =
          (aliceDb.leaderboards "memory")[i]?) ∧
    (∀ g, g ≠ "memory" →
        (submitScore aliceSession aliceDb 0 "memory" 42 none).db.leaderboards g =
          aliceDb.leaderboards g) :=
  ⟨⟨rfl, by decide⟩,
    submitScore_appends aliceSession aliceDb 0 "memory" 42 none "u1" rfl (by decide)⟩

/-- C4: for an authenticated session, the entry `submitScore(game, score, customName)` appends
carries the submitted score, the session user id, and as name the override when it is a
non-empty string, otherwise the session display name when it is a non-empty string,
otherwise `Joueur`. -/
theorem submitScore_entry (st : State) (db : Db) (now : Nat) (game : String) (score : JsNum)
    (customName : Option String) (uid : String) (huid : st.uid = some uid) (hne : uid ≠ "") :
    ∃ e, (submitScore st db now game score customName).db.leaderboards game =
        db.leaderboards game ++ [e] ∧
      e.score = score ∧ e.userId = uid ∧ e.ts = now ∧
      (∀ c, customName = some c → c ≠ "" → e.name = c) ∧
      ((customName = none ∨ customName = some "") →
        ∀ n, st.username = some n → n ≠ "" → e.name = n) ∧
      ((customName = none ∨ customName = some "") →
        (st.username = none ∨ st.username = some "") → e.name = "Joueur") := by
  have ht : truthy (some uid) = true := truthy_some hne
  simp only [submitScore, huid, ht, Bool.not_true, Bool.false_eq_true, if_false, interp,
    Db.writeAll, List.foldl, Db.write, Function.update_same]
  refine ⟨_, rfl, rfl, rfl, rfl, ?_, ?_, ?_⟩
  · intro c hc hcne
    simp [orStr, hc, hcne]
  · intro hc n hn hnne
    rcases hc with hc | hc <;> simp [orStr, hc, hn, hnne]
  · intro hc hn
    rcases hc with hc | hc <;> rcases hn with hn | hn <;> simp [orStr, hc, hn]

theorem submitScore_entry_witness :
    (aliceSession.uid = some "u1" ∧ "u1" ≠ "") ∧
    (submitScore aliceSession aliceDb 0 "memory" 42 none).db.leaderboards "memory" =
      [{ score := 42, name := "Alice", userId := "u1", ts := 0 }] :=
  ⟨⟨rfl, by decide⟩, by
    obtain ⟨e, he, h1, h2, h3, -, h5, -⟩ :=
      submitScore_entry aliceSession aliceDb 0 "memory" 42 none "u1" rfl (by decide)
    have h6 : e.name = "Alice" := h5 (Or.inl rfl) "Alice" rfl (by decide)
    rw [he]
    cases e
    simp_all [aliceDb]⟩

/-! ## Pinned games: properties -/

theorem storedList_getD (l : List String) : (storedList l).getD [] = l := by
  cases l <;> simp [storedList]

/-- The only list `togglePin` may change is the one of the session user, and what it stores
there is what it returns in the session. -/
theorem storedPinned_write_set (db : Db) (uid u : String) (l : List String) :
    storedPinned (db.writeAll [Write.set ["users", uid, "pinnedGames"] l]) u =
      if u = uid then l else storedPinned db u := by
  by_cases h : u = uid
  · subst h
    simp [Db.writeAll, Db.write, storedPinned, storedList_getD]
  · simp [Db.writeAll, Db.write, storedPinned, Function.update, h]

/-- One call of `togglePin` keeps every stored pinned list within three entries. -/
theorem togglePin_length_le (st : State) (db : Db) (game u : String)
    (h : (storedPinned db u).length ≤ 3) :
    (storedPinned (togglePin st db game).db u).length ≤ 3 := by
  unfold togglePin
  by_cases hauth : (!truthy st.uid) = true
  · rw [if_pos hauth]
    exact h
  · rw [if_neg hauth]
    dsimp only
    by_cases hidx : jsIndexOf (storedPinned db (interp st.uid)) game > -1
    · rw [if_pos hidx, storedPinned_write_set]
      by_cases hu : u = interp st.uid
      · rw [if_pos hu]
        subst hu
        exact le_trans (List.length_eraseIdx_le _ _) h
      · rw [if_neg hu]
        exact h
    · rw [if_neg hidx]
      by_cases hlen : (storedPinned db (interp st.uid)).length ≥ 3
      · rw [if_pos hlen]
        exact h
      · rw [if_neg hlen, storedPinned_write_set]
        by_cases hu : u = interp st.uid
        · rw [if_pos hu, List.length_append, List.length_singleton]
          omega
        · rw [if_neg hu]
          exact h

theorem togglePins_length_le (gs : List String) :
    ∀ (st : State) (db : Db) (u : String), (storedPinned db u).length ≤ 3 →
      (storedPinned (togglePins st db gs).2 u).length ≤ 3 := by
  induction gs with
  | nil => intro st db u h; exact h
  | cons g gs ih =>
    intro st db u h
    exact ih _ _ u (togglePin_length_le st db g u h)

/-- C5: starting from a store where a user has at most three pinned games, after every step
of any finite run of `togglePin` calls that user still has at most three pinned games. -/
theorem togglePin_at_most_three (st : State) (db : Db) (gs : List String) (u : String)
    (h : (storedPinned db u).length ≤ 3) (k : Nat) :
    (storedPinned (togglePins st db (gs.take k)).2 u).length ≤ 3 :=
  togglePins_length_le (gs.take k) st db u h

theorem togglePin_at_most_three_witness :
    (storedPinned aliceDb "u1").length ≤ 3 ∧
    (storedPinned (togglePins aliceSession aliceDb (["d", "a", "d", "e"].take 3)).2 "u1").length
      ≤ 3 :=
  ⟨by decide, togglePin_at_most_three aliceSession aliceDb ["d", "a", "d", "e"] "u1" (by decide) 3⟩

/-- C6: when the stored pinned list of the session user has three entries or more and does
not hold the game, `togglePin` returns normally, issues no write, and leaves the store and
the session (its `pinnedGames` included) as they were. -/
theorem togglePin_full_rejected (st : State) (db : Db) (game : String)
    (h : ∀ u, st.uid = some u → u ≠ "" →
      3 ≤ (storedPinned db u).length ∧ game ∉ storedPinned db u) :
    (togglePin st db game).result = .ok () ∧
    (togglePin st db game).writes = [] ∧
    (togglePin st db game).db = db ∧
    (togglePin st db game).state = st := by
  cases huid : st.uid with
  | none => simp [togglePin, huid, truthy]
  | some u =>
    by_cases hu : u = ""
    · simp [togglePin, huid, truthy, hu]
    · obtain ⟨hlen, hmem⟩ := h u huid hu
      simp [togglePin, huid, truthy, hu, interp, jsIndexOf, hmem, hlen]

theorem togglePin_full_rejected_witness :
    (∀ u, aliceSession.uid = some u → u ≠ "" →
      3 ≤ (storedPinned aliceDb u).length ∧ "d" ∉ storedPinned aliceDb u) ∧
    (togglePin aliceSession aliceDb "d").result = .ok () ∧
    (togglePin aliceSession aliceDb "d").writes = [] ∧
    (togglePin aliceSession aliceDb "d").db = aliceDb ∧
    (togglePin aliceSession aliceDb "d").state = aliceSession ∧
    storedPinned (togglePin aliceSession aliceDb "d").db "u1" = ["a", "b", "c"] :=
  have hyp : ∀ u, aliceSession.uid = some u → u ≠ "" →
      3 ≤ (storedPinned aliceDb u).length ∧ "d" ∉ storedPinned aliceDb u := by
    intro u hu _
    have : u = "u1" := by
      simp only [aliceSession, Option.some.injEq] at hu
      exact hu.symm
    subst this
    decide
  have h := togglePin_full_rejected aliceSession aliceDb "d" hyp
  ⟨hyp, h.1, h.2.1, h.2.2.1, h.2.2.2, by rw [h.2.2.1]; decide⟩

/-! ## Notifications: the query and the rendered list -/

theorem tsLe_refl (a : Option Nat) : tsLe a a = true := by
  cases a <;> simp [tsLe]

theorem tsLe_total (a b : Option Nat) : tsLe a b = true ∨ tsLe b a = true := by
  cases a <;> cases b <;> simp [tsLe]
  exact le_total _ _

theorem tsLe_trans {a b c : Option Nat} (h₁ : tsLe a b = true) (h₂ : tsLe b c = true) :
    tsLe a c = true := by
  cases a <;> cases b <;> cases c <;> simp_all [tsLe]
  exact le_trans h₁ h₂

theorem tsLe_antisymm {a b : Option Nat} (h₁ : tsLe a b = true) (h₂ : tsLe b a = true) :
    a = b := by
  cases a <;> cases b <;> simp_all [tsLe]
  exact le_antisymm h₁ h₂

theorem childLe_tsLe {keyLe : String → String → Bool} {a b : NotifChild}
    (h : childLe keyLe a b) : tsLe a.timestamp b.timestamp = true := by
  unfold childLe at h
  split at h
  · next heq => rw [heq]; exact tsLe_refl _
  · exact h

theorem childLe_total (keyLe : String → String → Bool)
    (htotal : ∀ a b, keyLe a b = true ∨ keyLe b a = true) :
    IsTotal NotifChild (childLe keyLe) where
  total a b := by
    unfold childLe
    by_cases h : a.timestamp = b.timestamp
    · rw [if_pos h, if_pos h.symm]
      exact htotal _ _
    · rw [if_neg h, if_neg (Ne.symm h)]
      exact tsLe_total _ _

theorem childLe_trans (keyLe : String → String → Bool)
    (htrans : ∀ a b c, keyLe a b = true → keyLe b c = true → keyLe a c = true) :
    IsTrans NotifChild (childLe keyLe) where
  trans a b c hab hbc := by
    have h₁ := childLe_tsLe hab
    have h₂ := childLe_tsLe hbc
    unfold childLe at hab hbc ⊢
    by_cases hac : a.timestamp = c.timestamp
    · rw [if_pos hac]
      have hab' : a.timestamp = b.timestamp := tsLe_antisymm h₁ (hac ▸ h₂)
      have hbc' : b.timestamp = c.timestamp := hab'.symm.trans hac
      rw [if_pos hab'] at hab
      rw [if_pos hbc'] at hbc
      exact htrans _ _ _ hab hbc
    · rw [if_neg hac]
      exact tsLe_trans h₁ h₂

/-- The query hands back at most 20 children. -/
theorem queryLast20_length (keyLe : String → String → Bool) (children : List NotifChild) :
    (queryLast20 keyLe children).length ≤ 20 := by
  simp only [queryLast20, List.length_drop]
  omega

/-- The query hands back its children by ascending timestamp, whatever total order the
store has on keys. -/
theorem queryLast20_sorted (keyLe : String → String → Bool)
    (htotal : ∀ a b, keyLe a b = true ∨ keyLe b a = true)
    (htrans : ∀ a b c, keyLe a b = true → keyLe b c = true → keyLe a c = true)
    (children : List NotifChild) :
    (queryLast20 keyLe children).Sorted (fun a b => tsLe a.timestamp b.timestamp = true) := by
  have h : (children.insertionSort (childLe keyLe)).Sorted (childLe keyLe) :=
    @List.sorted_insertionSort _ (childLe keyLe) _ (childLe_total keyLe htotal)
      (childLe_trans keyLe htrans) children
  have h' : (queryLast20 keyLe children).Pairwise (childLe keyLe) :=
    List.Pairwise.sublist (List.drop_sublist _ _) h
  exact List.Pairwise.imp (fun hab => childLe_tsLe hab) h'

/-- The query hands back children of the node only. -/
theorem mem_of_mem_queryLast20 {keyLe : String → String → Bool} {children : List NotifChild}
    {c : NotifChild} (h : c ∈ queryLast20 keyLe children) : c ∈ children :=
  (List.perm_insertionSort (childLe keyLe) children).subset ((List.drop_sublist _ _).subset h)

/-- The local array of `showNotifications` is the snapshot, reversed. -/
theorem showNotifications_notifs (st : State) (fmt : Option Nat → String)
    (notifSnap : List NotifChild) :
    (showNotifications st fmt notifSnap).notifs = (notifSnap.map toNotif).reverse := by
  unfold showNotifications
  dsimp only
  split <;> rfl

/-- C7: for a fetched list that is ordered by ascending timestamp and has at most 20
children, the list `loadNotifications` renders has at most 20 elements, is a permutation of
the fetched list, is ordered by descending timestamp, and the markup written to the page
is the concatenation of its items in that order. -/
theorem showNotifications_recent_first (st : State) (fmt : Option Nat → String)
    (notifSnap : List NotifChild)
    (hsorted : notifSnap.Sorted (fun a b => tsLe a.timestamp b.timestamp = true))
    (hlen : notifSnap.length ≤ 20) :
    (showNotifications st fmt notifSnap).notifs.length ≤ 20 ∧
    (showNotifications st fmt notifSnap).notifs.Perm (notifSnap.map toNotif) ∧
    (showNotifications st fmt notifSnap).notifs.Sorted
      (fun a b => tsLe b.timestamp a.timestamp = true) ∧
    (notifSnap ≠ [] → (showNotifications st fmt notifSnap).innerHTML =
      some (String.join ((showNotifications st fmt notifSnap).notifs.map (renderNotif fmt)))) := by
  rw [showNotifications_notifs]
  refine ⟨by simpa using hlen, List.reverse_perm _, ?_, ?_⟩
  · rw [List.Sorted, List.pairwise_reverse, List.pairwise_map]
    exact hsorted
  · intro hne
    have hlen0 : ¬ ((notifSnap.map toNotif).reverse.length = 0) := by
      simpa using hne
    unfold showNotifications
    dsimp only
    rw [if_neg hlen0]

theorem showNotifications_recent_first_witness :
    (aliceNotifications.Sorted (fun a b => tsLe a.timestamp b.timestamp = true) ∧
      aliceNotifications.length ≤ 20) ∧
    ((showNotifications aliceSession isoDate aliceNotifications).notifs.map Notif.id =
      ["n2", "n1", "n0"]) ∧
    (showNotifications aliceSession isoDate aliceNotifications).notifs.Sorted
      (fun a b => tsLe b.timestamp a.timestamp = true) :=
  have hs : aliceNotifications.Sorted (fun a b => tsLe a.timestamp b.timestamp = true) := by
    unfold aliceNotifications List.Sorted
    decide
  have hl : aliceNotifications.length ≤ 20 := by decide
  ⟨⟨hs, hl⟩, by rw [showNotifications_notifs]; decide,
    (showNotifications_recent_first aliceSession isoDate aliceNotifications hs hl).2.2.1⟩

/-! ## Notifications: the batched update -/

theorem objSet_of_not_mem (obj : List (Path × Bool)) (key : Path) (value : Bool)
    (h : ∀ e ∈ obj, e.1 ≠ key) : objSet obj key value = obj ++ [(key, value)] := by
  unfold objSet
  rw [if_neg]
  simp only [List.any_eq_true, beq_iff_eq, not_exists, not_and]
  exact h

theorem readPath_inj {uid : Option String} {a b : String}
    (h : readPath uid a = readPath uid b) : a = b := by
  simpa [readPath] using h

/-- The loop "Mark all as read", started from any object that holds none of its keys. -/
theorem readUpdates_foldl (uid : Option String) (notifs : List Notif) :
    ∀ acc : List (Path × Bool),
      (∀ e ∈ acc, ∀ n ∈ notifs, e.1 ≠ readPath uid n.id) →
      (notifs.map Notif.id).Nodup →
      notifs.foldl
          (fun updates notif =>
            if notif.read = some true then updates
            else objSet updates (readPath uid notif.id) true) acc =
        acc ++ (unread notifs).map (fun n => (readPath uid n.id, true)) := by
  induction notifs with
  | nil => intro acc _ _; simp [unread]
  | cons n ns ih =>
    intro acc hacc hnd
    rw [List.map_cons, List.nodup_cons] at hnd
    obtain ⟨hn, hnd⟩ := hnd
    rw [List.foldl_cons]
    by_cases hr : n.read = some true
    · rw [if_pos hr, ih acc (fun e he m hm => hacc e he m (List.mem_cons_of_mem _ hm)) hnd]
      simp [unread, hr]
    · rw [if_neg hr, objSet_of_not_mem _ _ _ (fun e he => hacc e he n (List.mem_cons_self _ _))]
      rw [ih]
      · simp [unread, hr]
      · intro e he m hm
        rcases List.mem_append.mp he with he | he
        · exact hacc e he m (List.mem_cons_of_mem _ hm)
        · simp only [List.mem_singleton] at he
          subst he
          intro heq
          have : n.id = m.id := readPath_inj heq
          exact hn (this ▸ List.mem_map_of_mem Notif.id hm)
      · exact hnd

theorem readUpdates_eq (uid : Option String) (notifs : List Notif)
    (hnd : (notifs.map Notif.id).Nodup) :
    readUpdates uid notifs = (unread notifs).map (fun n => (readPath uid n.id, true)) := by
  unfold readUpdates
  rw [readUpdates_foldl uid notifs [] (fun e he => absurd he (List.not_mem_nil e)) hnd]
  rfl

/-- C8, as the code has it: a call issues at most one update request. When at least one
fetched notification is unread it issues exactly one, a multi-path update whose map has one
entry per unread fetched notification, keyed `notifications/{uid}/{id}/read` with value
`true`, and none for a notification already read; when none is unread it issues no request. -/
theorem showNotifications_batched_update (st : State) (fmt : Option Nat → String)
    (notifSnap : List NotifChild) (hkeys : (notifSnap.map NotifChild.key).Nodup) :
    (unread (notifSnap.map toNotif).reverse = [] →
      (showNotifications st fmt notifSnap).writes = []) ∧
    (unread (notifSnap.map toNotif).reverse ≠ [] →
      (showNotifications st fmt notifSnap).writes =
        [Write.update ((unread (notifSnap.map toNotif).reverse).map
          (fun n => (readPath st.uid n.id, true)))]) ∧
    (∀ c ∈ notifSnap, c.read = some true →
      ∀ n ∈ unread (notifSnap.map toNotif).reverse, readPath st.uid n.id ≠ readPath st.uid c.key) := by
  have hnd : (((notifSnap.map toNotif).reverse).map Notif.id).Nodup := by
    rw [List.map_reverse, List.nodup_reverse, List.map_map]
    exact hkeys
  have hw : (showNotifications st fmt notifSnap).writes =
      if (unread (notifSnap.map toNotif).reverse).length > 0 then
        [Write.update ((unread (notifSnap.map toNotif).reverse).map
          (fun n => (readPath st.uid n.id, true)))]
      else [] := by
    unfold showNotifications
    dsimp only
    split
    · next h0 =>
      have : (notifSnap.map toNotif).reverse = [] := List.length_eq_zero.mp h0
      simp [this, unread]
    · simp only [readUpdates_eq st.uid _ hnd, List.length_map]
  refine ⟨?_, ?_, ?_⟩
  · intro h
    rw [hw, h]
    rfl
  · intro h
    rw [hw, if_pos (List.length_pos.mpr h)]
  · intro c hc hread n hn heq
    have hid : n.id = c.key := readPath_inj heq
    have hn' := hn
    simp only [unread, List.mem_filter, List.mem_reverse, List.mem_map, decide_eq_true_eq] at hn'
    obtain ⟨⟨c', hc', rfl⟩, hunread⟩ := hn'
    have hkey : c'.key = c.key := hid
    have : c' = c := by
      exact List.inj_on_of_nodup_map hkeys hc' hc hkey
    subst this
    exact hunread hread

theorem showNotifications_batched_update_witness :
    (aliceNotifications.map NotifChild.key).Nodup ∧
    (showNotifications aliceSession isoDate aliceNotifications).writes =
      [Write.update [(["notifications", "u1", "n1", "read"], true),
                     (["notifications", "u1", "n0", "read"], true)]] :=
  have hk : (aliceNotifications.map NotifChild.key).Nodup := by decide
  ⟨hk, by
    have h := (showNotifications_batched_update aliceSession isoDate aliceNotifications hk).2.1
      (by decide)
    rw [h]
    rfl⟩

/-- C8 as stated fails: when every fetched notification is already read, the call issues no
update request at all, batched or not. -/
theorem showNotifications_all_read_no_update :
    unread ((readSnapshot.map toNotif).reverse) = [] ∧
    ¬ ∃ m, (showNotifications aliceSession isoDate readSnapshot).writes = [Write.update m] := by
  refine ⟨by decide, ?_⟩
  rintro ⟨m, hm⟩
  have h : (showNotifications aliceSession isoDate readSnapshot).writes = [] := by
    simp [showNotifications, readSnapshot, toNotif, readUpdates]
  rw [h] at hm
  exact List.noConfusion hm

/-! ## Notifications: the read flag -/

theorem keepsRead_refl (a : NotifChild) : KeepsRead a a :=
  ⟨rfl, rfl, rfl, rfl, id⟩

theorem keepsRead_trans {a b c : NotifChild} (h₁ : KeepsRead a b) (h₂ : KeepsRead b c) :
    KeepsRead a c :=
  ⟨h₂.1.trans h₁.1, h₂.2.1.trans h₁.2.1, h₂.2.2.1.trans h₁.2.2.1,
    h₂.2.2.2.1.trans h₁.2.2.2.1, fun h => h₂.2.2.2.2 (h₁.2.2.2.2 h)⟩

theorem forall₂_keepsRead_refl (cs : List NotifChild) : List.Forall₂ KeepsRead cs cs := by
  induction cs with
  | nil => exact List.Forall₂.nil
  | cons c cs ih => exact List.Forall₂.cons (keepsRead_refl c) ih

theorem forall₂_keepsRead_trans {as bs cs : List NotifChild}
    (h₁ : List.Forall₂ KeepsRead as bs) (h₂ : List.Forall₂ KeepsRead bs cs) :
    List.Forall₂ KeepsRead as cs := by
  induction h₁ generalizing cs with
  | nil => cases h₂; exact List.Forall₂.nil
  | cons hab _ ih =>
    cases h₂ with
    | cons hbc htl => exact List.Forall₂.cons (keepsRead_trans hab hbc) (ih htl)

theorem forall₂_keepsRead_keys {as bs : List NotifChild} (h : List.Forall₂ KeepsRead as bs) :
    bs.map NotifChild.key = as.map NotifChild.key := by
  induction h with
  | nil => rfl
  | cons hab _ ih => simp [hab.1, ih]

/-- Setting to `true` the flag of a notification that exists keeps every notification. -/
theorem setRead_keepsRead (id : String) (cs : List NotifChild)
    (h : id ∈ cs.map NotifChild.key) : List.Forall₂ KeepsRead cs (setRead id true cs) := by
  induction cs with
  | nil => simp at h
  | cons c cs ih =>
    unfold setRead
    by_cases hc : c.key = id
    · rw [if_pos hc]
      exact List.Forall₂.cons ⟨rfl, rfl, rfl, rfl, fun _ => rfl⟩ (forall₂_keepsRead_refl cs)
    · rw [if_neg hc]
      refine List.Forall₂.cons (keepsRead_refl c) (ih ?_)
      rcases List.mem_map.mp h with ⟨c', hc', hk⟩
      rcases List.mem_cons.mp hc' with rfl | hc'
      · exact absurd hk hc
      · exact List.mem_map.mpr ⟨c', hc', hk⟩

/-- A multi-path update that sets to `true` the flags of notifications of `u₀` that exist
keeps every notification of every user. -/
theorem updates_keepRead (u₀ : String) (m : List (Path × Bool)) :
    ∀ db : Db,
      (∀ e ∈ m, ∃ id, e = (["notifications", u₀, id, "read"], true) ∧
        id ∈ (db.notifications u₀).map NotifChild.key) →
      ∀ u, List.Forall₂ KeepsRead (db.notifications u) ((m.foldl Db.updateAt db).notifications u) := by
  induction m with
  | nil => intro db _ u; exact forall₂_keepsRead_refl _
  | cons e m ih =>
    intro db hm u
    obtain ⟨id, he, hid⟩ := hm e (List.mem_cons_self _ _)
    have hstep : ∀ v, List.Forall₂ KeepsRead (db.notifications v)
        ((db.updateAt e).notifications v) := by
      intro v
      subst he
      simp only [Db.updateAt]
      by_cases hv : v = u₀
      · subst hv
        rw [Function.update_same]
        exact setRead_keepsRead id _ hid
      · rw [Function.update_noteq hv]
        exact forall₂_keepsRead_refl _
    rw [List.foldl_cons]
    refine forall₂_keepsRead_trans (hstep u) (ih (db.updateAt e) ?_ u)
    intro e' he'
    obtain ⟨id', he'', hid'⟩ := hm e' (List.mem_cons_of_mem _ he')
    exact ⟨id', he'', by rw [forall₂_keepsRead_keys (hstep u₀)]; exact hid'⟩

theorem mem_objSet {obj : List (Path × Bool)} {key : Path} {value : Bool} {e : Path × Bool}
    (h : e ∈ objSet obj key value) : e ∈ obj ∨ e = (key, value) := by
  unfold objSet at h
  split at h
  · rcases List.mem_map.mp h with ⟨e', he', rfl⟩
    split
    · exact Or.inr rfl
    · exact Or.inl he'
  · rcases List.mem_append.mp h with h | h
    · exact Or.inl h
    · exact Or.inr (List.mem_singleton.mp h)

/-- Every entry of the object `updates` sets to `true` the flag of a notification of the
call. -/
theorem mem_readUpdates (uid : Option String) (notifs : List Notif) {e : Path × Bool}
    (h : e ∈ readUpdates uid notifs) : ∃ n ∈ notifs, e = (readPath uid n.id, true) := by
  have key : ∀ (ns : List Notif) (acc : List (Path × Bool)),
      e ∈ ns.foldl
          (fun updates notif =>
            if notif.read = some true then updates
            else objSet updates (readPath uid notif.id) true) acc →
      e ∈ acc ∨ ∃ n ∈ ns, e = (readPath uid n.id, true) := by
    intro ns
    induction ns with
    | nil => intro acc h; exact Or.inl h
    | cons n ns ih =>
      intro acc h
      rw [List.foldl_cons] at h
      rcases ih _ h with h | ⟨m, hm, he⟩
      · split at h
        · exact Or.inl h
        · rcases mem_objSet h with h | h
          · exact Or.inl h
          · exact Or.inr ⟨n, List.mem_cons_self _ _, h⟩
      · exact Or.inr ⟨m, List.mem_cons_of_mem _ hm, he⟩
  rcases key notifs [] h with h | h
  · exact absurd h (List.not_mem_nil e)
  · exact h

/-- One call of `loadNotifications` keeps every notification of every user. -/
theorem loadNotifications_keepsRead (st : State) (db : Db) (container : Bool)
    (fmt : Option Nat → String) (u : String) :
    List.Forall₂ KeepsRead (db.notifications u)
      ((loadNotifications st db container fmt).2.notifications u) := by
  unfold loadNotifications
  split
  · exact forall₂_keepsRead_refl _
  · dsimp only
    unfold showNotifications
    dsimp only
    split
    · exact forall₂_keepsRead_refl _
    · split
      · simp only [Db.writeAll, List.foldl, Db.write]
        apply updates_keepRead (interp st.uid)
        intro e he
        obtain ⟨n, hn, rfl⟩ := mem_readUpdates _ _ he
        refine ⟨n.id, rfl, ?_⟩
        simp only [List.mem_reverse, List.mem_map] at hn
        obtain ⟨c, hc, rfl⟩ := hn
        exact List.mem_map.mpr ⟨c, mem_of_mem_queryLast20 hc, rfl⟩
      · exact forall₂_keepsRead_refl _

/-- Every write request of a call is a multi-path update whose values are all `true`. -/
theorem loadNotifications_writes_true (st : State) (db : Db) (container : Bool)
    (fmt : Option Nat → String) {w : Write}
    (hw : w ∈ (loadNotifications st db container fmt).1.writes) :
    ∃ m, w = Write.update m ∧ ∀ e ∈ m, e.2 = true := by
  unfold loadNotifications at hw
  split at hw
  · simp at hw
  · dsimp only at hw
    unfold showNotifications at hw
    dsimp only at hw
    split at hw
    · simp at hw
    · split at hw
      · rw [List.mem_singleton] at hw
        refine ⟨_, hw, ?_⟩
        intro e he
        obtain ⟨n, -, rfl⟩ := mem_readUpdates _ _ he
        rfl
      · simp at hw

/-- C9: after any finite run of `loadNotifications` calls, whatever the session and the page
of each call, the notifications of every user are the same ones in the same order, with the
same fields apart from the read flag, and a flag that was `true` is still `true`; the only
write requests a call issues are multi-path updates whose values are all `true`. -/
theorem loadNotifications_read_monotonic (fmt : Option Nat → String)
    (calls : List (State × Bool)) (db : Db) (u : String) :
    List.Forall₂ KeepsRead (db.notifications u)
      ((loadNotificationsSeq fmt db calls).notifications u) ∧
    (∀ st db container, ∀ w ∈ (loadNotifications st db container fmt).1.writes,
      ∃ m, w = Write.update m ∧ ∀ e ∈ m, e.2 = true) := by
  refine ⟨?_, fun st db container w hw => loadNotifications_writes_true st db container fmt hw⟩
  induction calls generalizing db with
  | nil => exact forall₂_keepsRead_refl _
  | cons c calls ih =>
    obtain ⟨st, container⟩ := c
    exact forall₂_keepsRead_trans (loadNotifications_keepsRead st db container fmt u)
      (ih (loadNotifications st db container fmt).2)

/-! ## Notifications: text and icon -/

/-- The text of a notification whose type is none of the five known ones. -/
theorem getNotificationText_unknown (n : Notif) (h : ∀ t ∈ knownTypes, n.type ≠ some t) :
    getNotificationText n = "Nouvelle notification" := by
  simp only [knownTypes, List.mem_cons, List.mem_singleton, forall_eq_or_imp, forall_eq,
    List.not_mem_nil, false_implies, implies_true, and_true] at h
  obtain ⟨h1, h2, h3, h4, h5⟩ := h
  unfold getNotificationText
  split <;> first | rfl | contradiction


/-- The icon of a type that is neither one of the five known ones nor the name of a member
of `Object.prototype` is the generic one. -/
theorem notifIcon_unknown (t : Option String) (h : jsString t ∉ knownTypes)
    (hp : jsString t ∉ objectPrototypeKeys) : notifIcon t = .str "📢" := by
  simp only [knownTypes, List.mem_cons, List.mem_singleton, List.not_mem_nil, or_false,
    not_or] at h
  obtain ⟨h1, h2, h3, h4, h5⟩ := h
  have b1 : (jsString t == "friend_request") = false := beq_eq_false_iff_ne.mpr h1
  have b2 : (jsString t == "friend_accepted") = false := beq_eq_false_iff_ne.mpr h2
  have b3 : (jsString t == "new_message") = false := beq_eq_false_iff_ne.mpr h3
  have b4 : (jsString t == "game_invite") = false := beq_eq_false_iff_ne.mpr h4
  have b5 : (jsString t == "group_message") = false := beq_eq_false_iff_ne.mpr h5
  simp [notifIcon, getProp, icons, List.lookup, hp, JsProp.orStr, b1, b2, b3, b4, b5]

/-- C10: `getNotificationText` returns the fixed text of each of the five known types and
`Nouvelle notification` for every other type, a missing one included; the icon lookup gives
the generic icon for the types that are neither known nor the name of a member of
`Object.prototype`, but for the type `toString`, as for each of those names, it gives the
inherited member instead of the generic icon. -/
theorem notifIcon_inherited_not_generic :
    (∀ n : Notif, (∀ t ∈ knownTypes, n.type ≠ some t) →
      getNotificationText n = "Nouvelle notification") ∧
    (∀ n : Notif, n.type = some "friend_request" → getNotificationText n =
      "<strong>" ++ escapeHtml (jsString n.fromUsername) ++ "</strong> vous a envoyé une demande d'ami") ∧
    (∀ n : Notif, n.type = some "friend_accepted" → getNotificationText n =
      "<strong>" ++ escapeHtml (jsString n.fromUsername) ++ "</strong> a accepté votre demande d'ami") ∧
    (∀ n : Notif, n.type = some "new_message" → getNotificationText n =
      "<strong>" ++ escapeHtml (jsString n.fromUsername) ++ "</strong> vous a envoyé un message") ∧
    (∀ n : Notif, n.type = some "game_invite" → getNotificationText n =
      "<strong>" ++ escapeHtml (jsString n.fromUsername) ++ "</strong> vous invite à jouer") ∧
    (∀ n : Notif, n.type = some "group_message" → getNotificationText n =
      "Nouveau message dans un groupe") ∧
    (∀ t : Option String, jsString t ∉ knownTypes → jsString t ∉ objectPrototypeKeys →
      notifIcon t = .str "📢") ∧
    "toString" ∉ knownTypes ∧
    getNotificationText ⟨"n1", some "toString", some "Bob", some 5, none⟩ =
      "Nouvelle notification" ∧
    notifIcon (some "toString") = .inherited "toString" ∧
    (notifIcon (some "toString")).interp = "function toString() \x7b [native code] \x7d" ∧
    (∀ k ∈ objectPrototypeKeys, k ∉ knownTypes ∧ notifIcon (some k) = .inherited k) := by
  refine ⟨getNotificationText_unknown, ?_, ?_, ?_, ?_, ?_, notifIcon_unknown, by decide,
    by decide, by decide, by decide, by decide⟩ <;>
  · intro n hn
    simp [getNotificationText, hn]

/-! ## Authentication: properties -/

/-- The text shown for an error whose message is neither a key of the table nor the name of
a member of `Object.prototype` is the generic one, whatever its code. -/
theorem getErrorMessage_unknown (error : Option String)
    (h : ∀ e ∈ errorMessages, jsString error ≠ e.1)
    (hp : jsString error ∉ objectPrototypeKeys) :
    getErrorMessage error = .str "Une erreur est survenue" := by
  simp only [errorMessages, List.mem_cons, List.mem_singleton, List.not_mem_nil, or_false,
    forall_eq_or_imp, forall_eq] at h
  obtain ⟨h1, h2, h3, h4, h5, h6⟩ := h
  have b1 := beq_eq_false_iff_ne.mpr h1
  have b2 := beq_eq_false_iff_ne.mpr h2
  have b3 := beq_eq_false_iff_ne.mpr h3
  have b4 := beq_eq_false_iff_ne.mpr h4
  have b5 := beq_eq_false_iff_ne.mpr h5
  have b6 := beq_eq_false_iff_ne.mpr h6
  simp [getErrorMessage, getProp, errorMessages, List.lookup, hp, JsProp.orStr, b1, b2, b3, b4,
    b5, b6]

/-- C11: the table of `getErrorMessage` maps each of the six codes to its message, but the
sign-in and sign-up handlers look up the message of the error, not its code: a sign-in that
fails with the code `auth/wrong-password` shows `Une erreur est survenue`, not the message
of the table, and so does every failure whose message is not itself a key of the table. -/
theorem loginFormSubmit_wrong_password_generic :
    (∀ e ∈ errorMessages, (getErrorMessage (some e.1)).interp = e.2) ∧
    (getErrorMessage (some wrongPassword.code)).interp = "Mot de passe incorrect" ∧
    loginFormSubmit (.error wrongPassword) = "Une erreur est survenue" ∧
    (getErrorMessage (some emailInUse.code)).interp = "Cette adresse email est déjà utilisée" ∧
    (registerFormSubmit aliceDb 0 (.error emailInUse) "bobby" "bob@example.org" "secret"
      "secret").1 = "Une erreur est survenue" ∧
    (∀ error : AuthError, (∀ e ∈ errorMessages, error.message ≠ e.1) →
      error.message ∉ objectPrototypeKeys →
      loginFormSubmit (.error error) = "Une erreur est survenue") := by
  refine ⟨by decide, by decide, by decide, by decide, by decide, ?_⟩
  intro error h hp
  have := getErrorMessage_unknown (some error.message) h hp
  simp [loginFormSubmit, loginUser, this, JsProp.interp]

/-! ## Chats and friends: properties -/

/-- On a text of 30 emoji, 60 code units, the preview keeps 50 code units: 25 emoji. -/
theorem chatPreview_thirty_emoji :
    chatPreview ⟨"c1", none, some ⟨some (utf16 (String.mk (List.replicate 30 '😀'))), none⟩⟩ =
      utf16 (String.mk (List.replicate 25 '😀')) := by
  decide

/-- C12: the preview of a conversation is the prefix of the text of its last message of
length `min 50 (length of the text)`, lengths counting UTF-16 code units as `length` and
`substring` do, hence of at most 50 of them, and it is empty when the conversation has no
last message or the last message has no text. -/
theorem chatPreview_prefix (chat : Chat) :
    chatPreview chat = ((chat.lastMessage.bind LastMessage.text).getD []).take 50 ∧
    chatPreview chat <+: (chat.lastMessage.bind LastMessage.text).getD [] ∧
    (chatPreview chat).length =
      min 50 ((chat.lastMessage.bind LastMessage.text).getD []).length ∧
    (chatPreview chat).length ≤ 50 ∧
    (chat.lastMessage = none → chatPreview chat = []) ∧
    (∀ m, chat.lastMessage = some m → m.text = none → chatPreview chat = []) := by
  have htake : chatPreview chat =
      ((chat.lastMessage.bind LastMessage.text).getD []).take 50 := by
    unfold chatPreview substring50
    cases (chat.lastMessage.bind LastMessage.text) with
    | none => rfl
    | some t =>
      simp only [Option.map_some', Option.getD_some]
      split
      · next h => exact (List.length_eq_zero.mp h).symm
      · rfl
  have hlen : (chatPreview chat).length =
      min 50 ((chat.lastMessage.bind LastMessage.text).getD []).length := by
    rw [htake, List.length_take]
  refine ⟨htake, ?_, hlen, ?_, ?_, ?_⟩
  · rw [htake]
    exact List.take_prefix _ _
  · rw [hlen]
    exact min_le_left _ _
  · intro h
    simp [chatPreview, h]
  · intro m h hm
    simp [chatPreview, h, hm]

/-- The presence elements of two statuses other than `online` are the same exactly when
their class attributes are. -/
theorem friendStatusDiv_eq_iff (a b : Option String) (ha : a ≠ some "online")
    (hb : b ≠ some "online") :
    friendStatusDiv a = friendStatusDiv b ↔ orStr a "offline" = orStr b "offline" := by
  constructor
  · intro h
    have hd := congrArg String.data h
    simp only [friendStatusDiv, friendStatusClass, friendStatusLabel, if_neg ha, if_neg hb,
      String.data_append, List.append_assoc, List.append_cancel_left_eq,
      List.append_cancel_right_eq] at hd
    exact String.ext hd
  · intro h
    simp only [friendStatusDiv, friendStatusClass, friendStatusLabel, if_neg ha, if_neg hb, h]

/-- C13 as stated fails: `away` and a missing status are both other than `online`, yet the
presence elements rendered for them differ, by their class attribute. -/
theorem friendStatusDiv_not_identical :
    some "away" ≠ some "online" ∧ (none : Option String) ≠ some "online" ∧
    friendStatusDiv (some "away") = "<div class=\"friend-status away\">⚫ Hors ligne</div>" ∧
    friendStatusDiv none = "<div class=\"friend-status offline\">⚫ Hors ligne</div>" ∧
    friendStatusDiv (some "away") ≠ friendStatusDiv none := by
  decide

/-- C13, as the code has it: the text of the presence element has two states, the online
label exactly when the stored status is `online` and one and the same offline label for
every other status, a missing one included; the class attribute carries the stored status
itself, or `offline` when the status is missing or empty, so that the elements of two
statuses other than `online` are the same exactly when their classes are: a missing status,
an empty one and `offline` give one element, any other status an element of its own. -/
theorem friendStatus_label_two_states (status other : Option String) :
    (friendStatusLabel status = "🟢 En ligne" ↔ status = some "online") ∧
    (status ≠ some "online" → friendStatusLabel status = "⚫ Hors ligne") ∧
    friendStatusDiv status =
      "<div class=\"friend-status " ++ orStr status "offline" ++ "\">" ++
        friendStatusLabel status ++ "</div>" ∧
    (∀ s, status = some s → s ≠ "" → orStr status "offline" = s) ∧
    ((status = none ∨ status = some "") → orStr status "offline" = "offline") ∧
    (status ≠ some "online" → other ≠ some "online" →
      (friendStatusDiv status = friendStatusDiv other ↔
        orStr status "offline" = orStr other "offline")) ∧
    ((status = none ∨ status = some "" ∨ status = some "offline") →
      friendStatusDiv status = "<div class=\"friend-status offline\">⚫ Hors ligne</div>") ∧
    (∀ s t, status = some s → other = some t → s ≠ "" → t ≠ "" → s ≠ "online" →
      t ≠ "online" → (friendStatusDiv status = friendStatusDiv other ↔ s = t)) := by
  refine ⟨?_, ?_, ?_, ?_, ?_, friendStatusDiv_eq_iff status other, ?_, ?_⟩
  · by_cases h : status = some "online"
    · simp [friendStatusLabel, h]
    · simp only [friendStatusLabel, if_neg h, h, iff_false]
      decide
  · intro h
    simp [friendStatusLabel, h]
  · simp only [friendStatusDiv, friendStatusClass, String.append_assoc]
    rw [← String.append_assoc "<div class=\"" "friend-status "]
    rfl
  · intro s hs hne
    simp [orStr, hs, hne]
  · intro h
    rcases h with h | h <;> simp [orStr, h]
  · intro h
    rcases h with h | h | h <;> subst h <;> decide
  · intro s t hs ht hs0 ht0 hs1 ht1
    subst hs ht
    rw [friendStatusDiv_eq_iff (some s) (some t) (by simpa using hs1) (by simpa using ht1)]
    simp [orStr, hs0, ht0]

/-! ## Federated login: properties -/

theorem socialProfile_ne_empty (user : User) (username : String) (now : Nat) :
    socialProfile user username now ≠ Profile.empty := by
  intro h
  have := congrArg Profile.username h
  simp [socialProfile, Profile.empty] at this

/-- When a profile exists, `handleSocialLogin` writes nothing. -/
theorem handleSocialLogin_exists (st : State) (db : Db) (now : Nat) (user : User)
    (h : profileExists db user.uid = true) :
    (handleSocialLogin st db now user).result = .ok () ∧
    (handleSocialLogin st db now user).writes = [] ∧
    (handleSocialLogin st db now user).db = db := by
  simp [handleSocialLogin, h]

/-- When no profile exists and the user has a name to give, `handleSocialLogin` writes a
fresh profile. -/
theorem handleSocialLogin_absent (st : State) (db : Db) (now : Nat) (user : User)
    (username : String) (h : profileExists db user.uid = false)
    (hname : socialUsername user = .ok username) :
    (handleSocialLogin st db now user).result = .ok () ∧
    (handleSocialLogin st db now user).writes =
      [Write.setProfile ["users", user.uid] (socialProfile user username now)] ∧
    (handleSocialLogin st db now user).db.users user.uid = socialProfile user username now ∧
    ((handleSocialLogin st db now user).db.users user.uid).stats = some ⟨some 0, some 0⟩ := by
  simp [handleSocialLogin, h, hname, Db.writeAll, Db.write, socialProfile]

/-- A second call of `handleSocialLogin` right after a first one writes nothing. -/
theorem handleSocialLogin_twice (st : State) (db : Db) (now now' : Nat) (user : User) :
    (handleSocialLogin st (handleSocialLogin st db now user).db now' user).db =
      (handleSocialLogin st db now user).db := by
  by_cases h : profileExists db user.uid = true
  · rw [(handleSocialLogin_exists st db now user h).2.2]
    exact (handleSocialLogin_exists st db now' user h).2.2
  · have h' : profileExists db user.uid = false := by simpa using h
    cases hname : socialUsername user with
    | error e =>
      have hdb : (handleSocialLogin st db now user).db = db := by
        simp [handleSocialLogin, h', hname]
      rw [hdb]
      simp [handleSocialLogin, h', hname]
    | ok username =>
      have hu := (handleSocialLogin_absent st db now user username h' hname).2.2.1
      have hex : profileExists (handleSocialLogin st db now user).db user.uid = true := by
        simp [profileExists, hu, socialProfile_ne_empty]
      exact (handleSocialLogin_exists st _ now' user hex).2.2

/-- C14: `handleSocialLogin` writes nothing when a profile exists, writes a fresh profile
with stats `{0, 0}` when none exists and the user has a display name or an email, and a
second call changes nothing; but for a user without display name and without email, and no
stored profile, it throws on `user.email.split` and writes no profile at all. -/
theorem handleSocialLogin_nameless_throws :
    (∀ st db now user, profileExists db user.uid = true →
      (handleSocialLogin st db now user).writes = [] ∧
      (handleSocialLogin st db now user).db = db) ∧
    (∀ st db now user username, profileExists db user.uid = false →
      socialUsername user = .ok username →
      (handleSocialLogin st db now user).writes =
        [Write.setProfile ["users", user.uid] (socialProfile user username now)] ∧
      ((handleSocialLogin st db now user).db.users user.uid).stats = some ⟨some 0, some 0⟩) ∧
    (∀ st db now now' user,
      (handleSocialLogin st (handleSocialLogin st db now user).db now' user).db =
        (handleSocialLogin st db now user).db) ∧
    profileExists aliceDb namelessUser.uid = false ∧
    (handleSocialLogin aliceSession aliceDb 0 namelessUser).result =
      .error "Cannot read properties of null (reading 'split')" ∧
    (handleSocialLogin aliceSession aliceDb 0 namelessUser).writes = [] ∧
    (handleSocialLogin aliceSession aliceDb 0 namelessUser).db.users namelessUser.uid =
      Profile.empty := by
  refine ⟨?_, ?_, handleSocialLogin_twice, by decide, ?_, ?_, by decide⟩
  · intro st db now user h
    exact (handleSocialLogin_exists st db now user h).2
  · intro st db now user username h hname
    have := handleSocialLogin_absent st db now user username h hname
    exact ⟨this.2.1, this.2.2.2⟩
  · simp [handleSocialLogin, profileExists, aliceDb, namelessUser, socialUsername, truthy,
      Profile.empty]
  · simp [handleSocialLogin, profileExists, aliceDb, namelessUser, socialUsername, truthy,
      Profile.empty]

/-! ## Aggregate stats: properties -/

theorem statsUpdate_some (score g t : JsNum) :
    statsUpdate score (some ⟨some g, some t⟩) =
      ⟨some (jsAdd (orZero (some g)) 1), some (jsAdd (orZero (some t)) score)⟩ := rfl

theorem statsAfter_cons (stats : Option Stats) (score : JsNum) (scores : List JsNum) :
    statsAfter stats (score :: scores) = statsAfter (some (statsUpdate score stats)) scores :=
  rfl

/-- The stats of the session user after a run of `submitScore` calls. -/
theorem submitScores_stats (st : State) (now : Nat) (game uid : String)
    (huid : st.uid = some uid) (hne : uid ≠ "") (scores : List JsNum) :
    ∀ db : Db, ((submitScores st db now game scores).users uid).stats =
      statsAfter ((db.users uid).stats) scores := by
  have ht : truthy (some uid) = true := truthy_some hne
  induction scores with
  | nil => intro db; rfl
  | cons s scores ih =>
    intro db
    rw [submitScores, ih]
    simp only [submitScore, huid, ht, Bool.not_true, Bool.false_eq_true, if_false, interp,
      Db.writeAll, List.foldl, Db.write, Function.update_same, statsAfter]

theorem orZero_nonneg {x : JsNum} (h : x.Nonneg) : (orZero (some x)).Nonneg := by
  cases x with
  | nan => exact absurd h (by simp [JsNum.Nonneg])
  | posInf => trivial
  | negInf => exact absurd h (by simp [JsNum.Nonneg])
  | fin q =>
    by_cases hq : q = 0
    · simp [orZero, hq, jsNum_natLit, JsNum.Nonneg]
    · simpa [orZero, hq] using h

theorem one_nonneg : (1 : JsNum).Nonneg := by
  simp [jsNum_natLit, JsNum.Nonneg]

/-- One more game: the counter goes up by one, until it stays at `2 ^ 53`. -/
theorem counter_step (m : ℕ) (hm : m ≤ 2 ^ 53) :
    jsAdd (orZero (some (.fin m))) 1 = .fin ((min (m + 1) (2 ^ 53) : ℕ) : ℚ) := by
  have ho : orZero (some (JsNum.fin (m : ℚ))) = .fin m := by
    simpa using orZero_intCast (m : ℤ)
  rw [ho]
  rcases Nat.lt_or_ge m (2 ^ 53) with hlt | hge
  · have habs : |((m : ℤ) + 1)| ≤ 2 ^ 53 := by
      rw [abs_of_nonneg (by positivity)]
      exact_mod_cast hlt
    have h := jsAdd_intCast (m : ℤ) 1 habs
    rw [Nat.min_eq_left hlt]
    simpa [jsNum_natLit] using h
  · have hm' : m = 2 ^ 53 := le_antisymm hm hge
    subst hm'
    rw [Nat.min_eq_right (Nat.le_succ _)]
    simp only [jsNum_natLit, jsAdd, Nat.cast_one, Nat.cast_pow, Nat.cast_ofNat]
    exact roundDouble_two_pow_53_add_one

/-- A run of transaction callbacks counts the games, up to `2 ^ 53`, and keeps the total
non-negative when the scores are. -/
theorem statsAfter_nonneg (scores : List JsNum) :
    ∀ (m : ℕ) (t : JsNum), m ≤ 2 ^ 53 →
      ∃ t' : JsNum, statsAfter (some ⟨some (.fin m), some t⟩) scores =
          some ⟨some (.fin ((min (m + scores.length) (2 ^ 53) : ℕ) : ℚ)), some t'⟩ ∧
        (t.Nonneg → (∀ s ∈ scores, s.Nonneg) → t'.Nonneg) := by
  induction scores with
  | nil =>
    intro m t hm
    refine ⟨t, ?_, fun ht _ => ht⟩
    rw [List.length_nil, Nat.add_zero, Nat.min_eq_left hm]
    rfl
  | cons s scores ih =>
    intro m t hm
    rw [statsAfter_cons, statsUpdate_some, counter_step m hm]
    obtain ⟨t', h, ht'⟩ := ih (min (m + 1) (2 ^ 53)) (jsAdd (orZero (some t)) s)
      (Nat.min_le_right _ _)
    refine ⟨t', ?_, fun ht hs => ht' ?_ ?_⟩
    · rw [h]
      have : min (min (m + 1) (2 ^ 53) + scores.length) (2 ^ 53) =
          min (m + (s :: scores).length) (2 ^ 53) := by
        simp only [List.length_cons]
        omega
      rw [this]
    · exact jsAdd_nonneg (orZero_nonneg ht) (hs s (List.mem_cons_self _ _))
    · exact fun x hx => hs x (List.mem_cons_of_mem _ hx)

/-- The double `5 / 2` is its own rounding. -/
theorem roundDouble_five_halves : roundDouble (5 / 2) = .fin (5 / 2) := by
  have he : ulpExponent (5 / 2) = -51 := by
    unfold ulpExponent
    rw [log_two_eq (L := 1) (by norm_num) (by norm_num)]
    norm_num
  have hr : roundMagnitude (5 / 2) = 5 / 2 := by
    apply roundMagnitude_of_int (5 * 2 ^ 50)
    rw [he]
    norm_num
  have habs : |(5 / 2 : ℚ)| = 5 / 2 := abs_of_pos (by norm_num)
  unfold roundDouble
  rw [habs, hr]
  norm_num

/-- C15 as stated fails: after a fresh registration, one submission of the score `-5` leaves
a negative total score, and one of the score `2.5` a total that is not an integer. -/
theorem submitScore_negative_total :
    (bobDb.users "u3").stats = some ⟨some 0, some 0⟩ ∧
    ((submitScores bobSession bobDb 0 "guess" [.fin (-5)]).users "u3").stats =
      some ⟨some 1, some (.fin (-5))⟩ ∧
    ¬ (JsNum.fin (-5)).Nonneg ∧
    ((submitScores bobSession bobDb 0 "guess" [.fin (5 / 2)]).users "u3").stats =
      some ⟨some 1, some (.fin (5 / 2))⟩ ∧
    ¬ ∃ z : ℤ, (5 / 2 : ℚ) = z := by
  have hfresh : (bobDb.users "u3").stats = some ⟨some 0, some 0⟩ := by
    simp [bobDb, registerUser, registeredProfile, Db.writeAll, Db.write, bobUser]
  have h01 : jsAdd (.fin 0) (.fin 1) = .fin 1 := by
    have := jsAdd_intCast 0 1 (by norm_num)
    simpa using this
  have h05 : jsAdd (.fin 0) (.fin (-5)) = .fin (-5) := by
    have := jsAdd_intCast 0 (-5) (by norm_num)
    simpa using this
  have h0h : jsAdd (.fin 0) (.fin (5 / 2)) = .fin (5 / 2) := by
    simp only [jsAdd, zero_add]
    exact roundDouble_five_halves
  have hz : orZero (some (JsNum.fin 0)) = .fin 0 := by
    simp [orZero, jsNum_natLit]
  refine ⟨hfresh, ?_, by simp [JsNum.Nonneg], ?_, ?_⟩
  · rw [submitScores_stats bobSession 0 "guess" "u3" rfl (by decide), hfresh]
    simp [statsAfter, statsUpdate, jsNum_natLit, hz, h01, h05]
  · rw [submitScores_stats bobSession 0 "guess" "u3" rfl (by decide), hfresh]
    simp [statsAfter, statsUpdate, jsNum_natLit, hz, h01, h0h]
  · rintro ⟨z, hz⟩
    have h2 : (5 : ℚ) = 2 * z := by linarith
    have h3 : (5 : ℤ) = 2 * z := by exact_mod_cast h2
    omega

/-- C15, as the code has it: starting from a fresh profile, after any finite run of
authenticated `submitScore` calls with numeric scores the games-played counter is a
non-negative integer (the number of calls, as long as that is at most `2 ^ 53`), and the
total score is non-negative when every submitted score is. -/
theorem submitScores_nonneg (st : State) (db : Db) (now : Nat) (game uid : String)
    (scores : List JsNum) (huid : st.uid = some uid) (hne : uid ≠ "")
    (hfresh : (db.users uid).stats = some ⟨some 0, some 0⟩) :
    ∃ (n : ℕ) (t : JsNum),
      ((submitScores st db now game scores).users uid).stats = some ⟨some (.fin n), some t⟩ ∧
      n = min scores.length (2 ^ 53) ∧
      ((∀ s ∈ scores, s.Nonneg) → t.Nonneg) := by
  have hz : (0 : JsNum).Nonneg := by simp [jsNum_natLit, JsNum.Nonneg]
  obtain ⟨t, h, ht⟩ := statsAfter_nonneg scores 0 0 (Nat.zero_le _)
  refine ⟨min scores.length (2 ^ 53), t, ?_, rfl, ht hz⟩
  rw [submitScores_stats st now game uid huid hne, hfresh]
  simpa [jsNum_natLit] using h

theorem submitScores_nonneg_witness :
    (bobSession.uid = some "u3" ∧ "u3" ≠ "" ∧
      (bobDb.users "u3").stats = some ⟨some 0, some 0⟩) ∧
    ∃ t : JsNum,
      ((submitScores bobSession bobDb 0 "guess" [7, 0, .fin (5 / 2)]).users "u3").stats =
        some ⟨some 3, some t⟩ ∧ t.Nonneg :=
  have hfresh : (bobDb.users "u3").stats = some ⟨some 0, some 0⟩ := by
    simp [bobDb, registerUser, registeredProfile, Db.writeAll, Db.write, bobUser]
  ⟨⟨rfl, by decide, hfresh⟩, by
    obtain ⟨n, t, h, hn, ht⟩ :=
      submitScores_nonneg bobSession bobDb 0 "guess" "u3" [7, 0, .fin (5 / 2)] rfl (by decide)
        hfresh
    have hn3 : n = 3 := by
      rw [hn]
      norm_num
    subst hn3
    refine ⟨t, by simpa [jsNum_natLit] using h, ht ?_⟩
    intro s hs
    simp only [List.mem_cons, List.mem_singleton, List.not_mem_nil, or_false] at hs
    rcases hs with rfl | rfl | rfl <;> simp [jsNum_natLit, JsNum.Nonneg]
    norm_num⟩

theorem orZero_ofInt (z : ℤ) : orZero (some (JsNum.ofInt z)) = .ofInt z :=
  orZero_intCast z

/-- Within the integers up to `2 ^ 53` a run of transaction callbacks counts the scores and
adds them up. -/
theorem statsAfter_ofInt (scores : List ℤ) :
    ∀ g t : ℤ, |g| + scores.length ≤ 2 ^ 53 → |t| + (scores.map (fun s => |s|)).sum ≤ 2 ^ 53 →
      statsAfter (some ⟨some (.ofInt g), some (.ofInt t)⟩) (scores.map JsNum.ofInt) =
        some ⟨some (.ofInt (g + scores.length)), some (.ofInt (t + scores.sum))⟩ := by
  induction scores with
  | nil => intro g t _ _; simp [statsAfter]
  | cons s scores ih =>
    intro g t hg ht
    simp only [List.length_cons, Nat.cast_add, Nat.cast_one, List.map_cons, List.sum_cons]
      at hg ht ⊢
    have hg1 : |g + 1| ≤ 2 ^ 53 := by
      have := abs_add g 1
      have h1 : |(1 : ℤ)| = 1 := abs_one
      have hlen : (0 : ℤ) ≤ scores.length := Int.natCast_nonneg _
      omega
    have habs : 0 ≤ (scores.map (fun s => |s|)).sum :=
      List.sum_nonneg (by
        intro x hx
        obtain ⟨y, -, rfl⟩ := List.mem_map.mp hx
        exact abs_nonneg y)
    have hts : |t + s| ≤ 2 ^ 53 := by
      have := abs_add t s
      omega
    have h1 : jsAdd (.ofInt g) 1 = .ofInt (g + 1) := by
      have := jsAdd_intCast g 1 hg1
      simpa [JsNum.ofInt, jsNum_natLit] using this
    have h2 : jsAdd (.ofInt t) (.ofInt s) = .ofInt (t + s) := jsAdd_intCast t s hts
    rw [statsAfter_cons, statsUpdate_some, orZero_ofInt, orZero_ofInt, h1, h2,
      ih (g + 1) (t + s) (by have := abs_add g 1; have h1 : |(1 : ℤ)| = 1 := abs_one; omega)
        (by have := abs_add t s; omega)]
    congr 3
    · congr 1; ring
    · congr 1; ring

/-- The integer `2 ^ 53 + 2` is a double. -/
theorem roundDouble_two_pow_53_add_two :
    roundDouble (2 ^ 53 + 2) = .fin (2 ^ 53 + 2) := by
  have he : ulpExponent (2 ^ 53 + 2) = 1 := by
    unfold ulpExponent
    rw [log_two_eq (L := 53) (by norm_num) (by norm_num)]
    norm_num
  have hr : roundMagnitude (2 ^ 53 + 2) = 2 ^ 53 + 2 := by
    apply roundMagnitude_of_int (2 ^ 52 + 1)
    rw [he]
    norm_num
  have habs : |((2 : ℚ) ^ 53 + 2)| = 2 ^ 53 + 2 := abs_of_pos (by norm_num)
  unfold roundDouble
  rw [habs, hr]
  norm_num

/-- C17 as stated fails: from the stats `{0, 0}` the scores `2 ^ 53, 1, 1` end with the
total `2 ^ 53`, not with their sum `2 ^ 53 + 2`, while in the order `1, 1, 2 ^ 53` they do
end with `2 ^ 53 + 2`. -/
theorem statsAfter_order_matters :
    statsAfter (some ⟨some 0, some 0⟩) [.fin (2 ^ 53), 1, 1] =
      some ⟨some 3, some (.fin (2 ^ 53))⟩ ∧
    statsAfter (some ⟨some 0, some 0⟩) [1, 1, .fin (2 ^ 53)] =
      some ⟨some 3, some (.fin (2 ^ 53 + 2))⟩ ∧
    ([1, 1, .fin (2 ^ 53)] : List JsNum).Perm [.fin (2 ^ 53), 1, 1] ∧
    JsNum.fin (2 ^ 53) ≠ .fin (2 ^ 53 + 2) := by
  have hz : orZero (some (JsNum.fin 0)) = .fin 0 := by simp [orZero, jsNum_natLit]
  have o1 : orZero (some (JsNum.fin 1)) = .fin 1 := by simpa using orZero_intCast 1
  have o2 : orZero (some (JsNum.fin 2)) = .fin 2 := by simpa using orZero_intCast 2
  have ob : orZero (some (JsNum.fin (2 ^ 53))) = .fin (2 ^ 53) := by
    simpa using orZero_intCast (2 ^ 53)
  have a01 : jsAdd (.fin 0) (.fin 1) = .fin 1 := by
    simpa using jsAdd_intCast 0 1 (by norm_num)
  have a11 : jsAdd (.fin 1) (.fin 1) = .fin 2 := by
    have := jsAdd_intCast 1 1 (by norm_num)
    norm_num at this
    exact this
  have a21 : jsAdd (.fin 2) (.fin 1) = .fin 3 := by
    have := jsAdd_intCast 2 1 (by norm_num)
    norm_num at this
    exact this
  have a0b : jsAdd (.fin 0) (.fin (2 ^ 53)) = .fin (2 ^ 53) := by
    simpa using jsAdd_intCast 0 (2 ^ 53) (by norm_num)
  have ab1 : jsAdd (.fin (2 ^ 53)) (.fin 1) = .fin (2 ^ 53) := by
    simp only [jsAdd]
    exact roundDouble_two_pow_53_add_one
  have a2b : jsAdd (.fin 2) (.fin (2 ^ 53)) = .fin (2 ^ 53 + 2) := by
    simp only [jsAdd]
    rw [add_comm]
    exact roundDouble_two_pow_53_add_two
  refine ⟨?_, ?_, ?_, by norm_num⟩
  · simp [statsAfter, statsUpdate, jsNum_natLit, hz, o1, o2, ob, a01, a11, a21, a0b, ab1]
  · simp [statsAfter, statsUpdate, jsNum_natLit, hz, o1, o2, ob, a01, a11, a21, a2b]
  · exact @List.perm_append_comm JsNum [1, 1] [JsNum.fin (2 ^ 53)]

/-- C17, as the code has it: for integers within the range where doubles are exact (`|g|`
plus the number of scores, and `|t|` plus the sum of the `|s|`, both up to `2 ^ 53`),
whatever the order in which the scores of a list are applied, the transaction callback of
`submitScore`, run once per score from the stats `{g, t}`, ends with
`{g + n, t + s1 + ... + sn}`. -/
theorem statsAfter_perm (g t : ℤ) (scores applied : List ℤ) (h : applied.Perm scores)
    (hg : |g| + scores.length ≤ 2 ^ 53)
    (ht : |t| + (scores.map (fun s => |s|)).sum ≤ 2 ^ 53) :
    statsAfter (some ⟨some (.ofInt g), some (.ofInt t)⟩) (applied.map JsNum.ofInt) =
      some ⟨some (.ofInt (g + scores.length)), some (.ofInt (t + scores.sum))⟩ := by
  rw [statsAfter_ofInt applied g t (by rw [h.length_eq]; exact hg)
    (by rw [(h.map _).sum_eq]; exact ht), h.length_eq, h.sum_eq]

theorem statsAfter_perm_witness :
    (([30, 10, 20] : List ℤ).Perm [10, 20, 30] ∧
      |(3 : ℤ)| + ([10, 20, 30] : List ℤ).length ≤ 2 ^ 53 ∧
      |(100 : ℤ)| + (([10, 20, 30] : List ℤ).map (fun s => |s|)).sum ≤ 2 ^ 53) ∧
    statsAfter (some ⟨some 3, some 100⟩) [30, 10, 20] = some ⟨some 6, some 160⟩ :=
  have hp : ([30, 10, 20] : List ℤ).Perm [10, 20, 30] := by decide
  have hg : |(3 : ℤ)| + ([10, 20, 30] : List ℤ).length ≤ 2 ^ 53 := by norm_num
  have ht : |(100 : ℤ)| + (([10, 20, 30] : List ℤ).map (fun s => |s|)).sum ≤ 2 ^ 53 := by
    norm_num
  ⟨⟨hp, hg, ht⟩, by
    have h := statsAfter_perm 3 100 [10, 20, 30] [30, 10, 20] hp hg ht
    simp only [List.map_cons, List.map_nil, JsNum.ofInt] at h
    norm_num at h
    simpa [jsNum_natLit] using h⟩

/-! ## The session: properties -/

theorem submitScore_state (st : State) (db : Db) (now : Nat) (game : String) (score : JsNum)
    (customName : Option String) : (submitScore st db now game score customName).state = st := by
  unfold submitScore
  split <;> rfl

theorem handleSocialLogin_state (st : State) (db : Db) (now : Nat) (user : User) :
    (handleSocialLogin st db now user).state = st := by
  unfold handleSocialLogin
  split
  · split <;> rfl
  · rfl

/-- What `togglePin` changes in the session is `pinnedGames` only. -/
theorem togglePin_identity (st : State) (db : Db) (game : String) :
    (togglePin st db game).state.user = st.user ∧
    (togglePin st db game).state.uid = st.uid ∧
    (togglePin st db game).state.username = st.username := by
  unfold togglePin
  split
  · exact ⟨rfl, rfl, rfl⟩
  · dsimp only
    split
    · exact ⟨rfl, rfl, rfl⟩
    · split <;> exact ⟨rfl, rfl, rfl⟩

/-- What `toggleFavorite` changes in the session is `favoriteGames` only. -/
theorem toggleFavorite_identity (st : State) (db : Db) (game : String) :
    (toggleFavorite st db game).state.user = st.user ∧
    (toggleFavorite st db game).state.uid = st.uid ∧
    (toggleFavorite st db game).state.username = st.username := by
  unfold toggleFavorite
  split
  · exact ⟨rfl, rfl, rfl⟩
  · dsimp only
    split <;> exact ⟨rfl, rfl, rfl⟩

theorem loadGamePreferences_identity (st : State) (db : Db) :
    (loadGamePreferences st db).user = st.user ∧
    (loadGamePreferences st db).uid = st.uid ∧
    (loadGamePreferences st db).username = st.username := by
  unfold loadGamePreferences
  split <;> exact ⟨rfl, rfl, rfl⟩

theorem loadNotifications_state (st : State) (db : Db) (container : Bool)
    (fmt : Option Nat → String) : (loadNotifications st db container fmt).1.state = st := by
  unfold loadNotifications
  split
  · rfl
  · dsimp only
    unfold showNotifications
    dsimp only
    split <;> rfl

theorem loadFriendsList_state (st : State) (container : Bool) (friends : List Friend) :
    (loadFriendsList st container friends).1 = st := by
  unfold loadFriendsList
  split
  · rfl
  · split <;> rfl

/-- What the save-username handler changes in the session is `username` only, and only for
a name of at least 3 code units. -/
theorem saveUsername_identity (st : State) (db : Db) (input : String) :
    (saveUsername st db input).state.user = st.user ∧
    (saveUsername st db input).state.uid = st.uid ∧
    (saveUsername st db input).state.username =
      if jsLength (jsTrim input) < 3 then st.username else some (jsTrim input) := by
  unfold saveUsername
  dsimp only
  split <;> exact ⟨rfl, rfl, rfl⟩

/-- C16 as stated fails: saving the new username `Alicia` changes `state.username`. -/
theorem saveUsername_writes_username :
    (Action.run isoDate aliceSession aliceDb (.saveUsername "Alicia")).1.username =
      some "Alicia" ∧
    (Action.run isoDate aliceSession aliceDb (.saveUsername "Alicia")).1.username ≠
      aliceSession.username := by
  decide

/-- C16, as the code has it: among the operations `handleSocialLogin`, `showAuthModal`,
`hideAuthModal`, `submitScore`, `togglePin`, `toggleFavorite`, `loadGamePreferences`,
`loadNotifications`, `loadFriendsList`, `showChatsModal` and the save-username handler,
every one leaves `state.user` and `state.uid` unchanged; every one other than the
save-username handler leaves `state.username` unchanged too, and the save-username handler
sets it to the trimmed input when that has a `length` of at least 3. -/
theorem identity_written_by_auth_and_save (fmt : Option Nat → String) (st : State) (db : Db)
    (a : Action) (hauth : ∀ modal user, a ≠ .authStateChanged modal user) :
    (a.run fmt st db).1.user = st.user ∧
    (a.run fmt st db).1.uid = st.uid ∧
    ((∀ input, a ≠ .saveUsername input) → (a.run fmt st db).1.username = st.username) ∧
    (∀ input, a = .saveUsername input →
      (a.run fmt st db).1.username =
        if jsLength (jsTrim input) < 3 then st.username else some (jsTrim input)) := by
  cases a with
  | authStateChanged modal user => exact absurd rfl (hauth modal user)
  | handleSocialLogin now user =>
    refine ⟨?_, ?_, fun _ => ?_, fun _ h => by cases h⟩ <;>
      simp only [Action.run, handleSocialLogin_state]
  | showAuthModal =>
    simp only [Action.run, showAuthModal]
    split <;> exact ⟨rfl, rfl, fun _ => rfl, fun _ h => by cases h⟩
  | hideAuthModal modal =>
    simp only [Action.run, hideAuthModal]
    split <;> exact ⟨rfl, rfl, fun _ => rfl, fun _ h => by cases h⟩
  | submitScore now game score customName =>
    refine ⟨?_, ?_, fun _ => ?_, fun _ h => by cases h⟩ <;>
      simp only [Action.run, submitScore_state]
  | togglePin game =>
    have h := togglePin_identity st db game
    exact ⟨h.1, h.2.1, fun _ => h.2.2, fun _ h => by cases h⟩
  | toggleFavorite game =>
    have h := toggleFavorite_identity st db game
    exact ⟨h.1, h.2.1, fun _ => h.2.2, fun _ h => by cases h⟩
  | loadGamePreferences =>
    have h := loadGamePreferences_identity st db
    exact ⟨h.1, h.2.1, fun _ => h.2.2, fun _ h => by cases h⟩
  | loadNotifications container =>
    refine ⟨?_, ?_, fun _ => ?_, fun _ h => by cases h⟩ <;>
      simp only [Action.run, loadNotifications_state]
  | loadFriendsList container friends =>
    refine ⟨?_, ?_, fun _ => ?_, fun _ h => by cases h⟩ <;>
      simp only [Action.run, loadFriendsList_state]
  | showChatsModal chats => exact ⟨rfl, rfl, fun _ => rfl, fun _ h => by cases h⟩
  | saveUsername input =>
    have h := saveUsername_identity st db input
    refine ⟨h.1, h.2.1, fun hne => absurd rfl (hne input), ?_⟩
    intro input' heq
    cases heq
    exact h.2.2

theorem identity_written_by_auth_and_save_witness :
    (∀ modal user, Action.saveUsername " 😀a " ≠ .authStateChanged modal user) ∧
    ((Action.saveUsername " 😀a ").run isoDate aliceSession aliceDb).1.uid = some "u1" ∧
    ((Action.saveUsername " 😀a ").run isoDate aliceSession aliceDb).1.username = some "😀a" :=
  have hne : ∀ modal user, Action.saveUsername " 😀a " ≠ .authStateChanged modal user := by
    intro modal user h
    cases h
  have h := identity_written_by_auth_and_save isoDate aliceSession aliceDb
    (.saveUsername " 😀a ") hne
  ⟨hne, h.2.1, by
    rw [h.2.2.2 " 😀a " rfl]
    decide⟩

/-! ## Favourite games: properties -/

theorem storedFavorites_write_set (db : Db) (uid : String) (l : List String) :
    storedFavorites (db.writeAll [Write.set ["users", uid, "favoriteGames"] l]) uid = l := by
  simp [Db.writeAll, Db.write, storedFavorites, storedList_getD]

/-- The list `toggleFavorite` writes, stores and keeps in the session. -/
theorem toggleFavorite_stored (st : State) (db : Db) (game uid : String)
    (huid : st.uid = some uid) (hne : uid ≠ "") :
    (toggleFavorite st db game).writes =
      [Write.set ["users", uid, "favoriteGames"] (toggled (storedFavorites db uid) game)] ∧
    (toggleFavorite st db game).state.favoriteGames = toggled (storedFavorites db uid) game ∧
    storedFavorites (toggleFavorite st db game).db uid = toggled (storedFavorites db uid) game ∧
    (toggleFavorite st db game).state.uid = some uid := by
  have ht : truthy (some uid) = true := truthy_some hne
  unfold toggleFavorite
  simp only [huid, ht, Bool.not_true, Bool.false_eq_true, if_false, interp]
  by_cases hmem : game ∈ storedFavorites db uid
  · have hidx : jsIndexOf (storedFavorites db uid) game > -1 := by
      simp only [jsIndexOf, if_pos hmem]
      omega
    have herase : (storedFavorites db uid).eraseIdx
        (jsIndexOf (storedFavorites db uid) game).toNat = (storedFavorites db uid).erase game := by
      simp only [jsIndexOf, if_pos hmem, Int.toNat_ofNat, List.eraseIdx_indexOf_eq_erase]
    rw [if_pos hidx]
    simp only [herase, storedFavorites_write_set, toggled, if_pos hmem, and_self]
  · have hidx : ¬ jsIndexOf (storedFavorites db uid) game > -1 := by
      simp [jsIndexOf, hmem]
    rw [if_neg hidx]
    simp only [storedFavorites_write_set, toggled, if_neg hmem, and_self]

theorem mem_toggled {l : List String} (hnd : l.Nodup) (game x : String) :
    x ∈ toggled l game ↔ (x = game ∧ game ∉ l) ∨ (x ≠ game ∧ x ∈ l) := by
  unfold toggled
  by_cases hmem : game ∈ l
  · rw [if_pos hmem, hnd.mem_erase_iff]
    constructor
    · rintro ⟨h1, h2⟩
      exact Or.inr ⟨h1, h2⟩
    · rintro (⟨_, h⟩ | h)
      · exact absurd hmem h
      · exact h
  · rw [if_neg hmem, List.mem_append, List.mem_singleton]
    constructor
    · rintro (h | h)
      · exact Or.inr ⟨fun heq => hmem (heq ▸ h), h⟩
      · exact Or.inl ⟨h, hmem⟩
    · rintro (⟨h, _⟩ | ⟨_, h⟩)
      · exact Or.inr h
      · exact Or.inl h

theorem nodup_toggled {l : List String} (hnd : l.Nodup) (game : String) :
    (toggled l game).Nodup := by
  unfold toggled
  by_cases hmem : game ∈ l
  · rw [if_pos hmem]
    exact hnd.erase game
  · rw [if_neg hmem]
    exact List.Nodup.append hnd (List.nodup_singleton game)
      (by
        intro x hx hx'
        rw [List.mem_singleton] at hx'
        exact hmem (hx' ▸ hx))

theorem filter_toggled {l : List String} (hnd : l.Nodup) (game : String) :
    (toggled l game).filter (fun x => x != game) = l.filter (fun x => x != game) := by
  unfold toggled
  by_cases hmem : game ∈ l
  · rw [if_pos hmem, hnd.erase_eq_filter, List.filter_filter]
    simp
  · rw [if_neg hmem, List.filter_append]
    simp

/-- C18: for an authenticated session and a duplicate-free stored list of favourites,
`toggleFavorite` flips the membership of the game, keeps the membership and the relative
order of every other game, writes a duplicate-free list, which is also the list it leaves in
`state.favoriteGames`; toggling the same game a second time gives back the favourites of
the start, as a set. -/
theorem toggleFavorite_flips (st : State) (db : Db) (game uid : String)
    (huid : st.uid = some uid) (hne : uid ≠ "") (hnd : (storedFavorites db uid).Nodup) :
    (game ∈ storedFavorites (toggleFavorite st db game).db uid ↔
      game ∉ storedFavorites db uid) ∧
    (∀ x, x ≠ game →
      (x ∈ storedFavorites (toggleFavorite st db game).db uid ↔ x ∈ storedFavorites db uid)) ∧
    (storedFavorites (toggleFavorite st db game).db uid).filter (fun x => x != game) =
      (storedFavorites db uid).filter (fun x => x != game) ∧
    (storedFavorites (toggleFavorite st db game).db uid).Nodup ∧
    (toggleFavorite st db game).writes =
      [Write.set ["users", uid, "favoriteGames"] (toggleFavorite st db game).state.favoriteGames] ∧
    (toggleFavorite st db game).state.favoriteGames =
      storedFavorites (toggleFavorite st db game).db uid ∧
    (∀ x, x ∈ storedFavorites
        (toggleFavorite (toggleFavorite st db game).state (toggleFavorite st db game).db game).db
        uid ↔ x ∈ storedFavorites db uid) := by
  obtain ⟨hw, hs, hdb, huid'⟩ := toggleFavorite_stored st db game uid huid hne
  obtain ⟨-, -, hdb2, -⟩ := toggleFavorite_stored (toggleFavorite st db game).state
    (toggleFavorite st db game).db game uid huid' hne
  rw [hdb2, hw, hs, hdb]
  refine ⟨?_, ?_, filter_toggled hnd game, nodup_toggled hnd game, rfl, rfl, ?_⟩
  · rw [mem_toggled hnd]
    constructor
    · rintro (⟨_, h⟩ | ⟨h, _⟩)
      · exact h
      · exact absurd rfl h
    · intro h
      exact Or.inl ⟨rfl, h⟩
  · intro x hx
    rw [mem_toggled hnd]
    constructor
    · rintro (⟨h, _⟩ | ⟨_, h⟩)
      · exact absurd h hx
      · exact h
    · intro h
      exact Or.inr ⟨hx, h⟩
  · intro x
    rw [mem_toggled (nodup_toggled hnd game), mem_toggled hnd, mem_toggled hnd]
    by_cases hx : x = game
    · subst hx
      by_cases hm : x ∈ storedFavorites db uid <;> simp [hm]
    · simp [hx]

theorem toggleFavorite_flips_witness :
    (aliceSession.uid = some "u1" ∧ "u1" ≠ "" ∧ (storedFavorites favDb "u1").Nodup) ∧
    storedFavorites (toggleFavorite aliceSession favDb "memory").db "u1" = ["guess"] ∧
    (∀ x, x ∈ storedFavorites
        (toggleFavorite (toggleFavorite aliceSession favDb "memory").state
          (toggleFavorite aliceSession favDb "memory").db "memory").db "u1" ↔
      x ∈ storedFavorites favDb "u1") :=
  ⟨⟨rfl, by decide, by decide⟩, by decide,
    (toggleFavorite_flips aliceSession favDb "memory" "u1" rfl (by decide) (by decide)).2.2.2.2.2.2⟩

/-! ## Escaping: properties -/

theorem escapeChar_cases (c : Char) :
    (c = '&' ∧ escapeChar c = ['&', 'a', 'm', 'p', ';']) ∨
    (c = '<' ∧ escapeChar c = ['&', 'l', 't', ';']) ∨
    (c = '>' ∧ escapeChar c = ['&', 'g', 't', ';']) ∨
    (c ≠ '&' ∧ c ≠ '<' ∧ c ≠ '>' ∧ escapeChar c = [c]) := by
  by_cases h1 : c = '&'
  · exact Or.inl ⟨h1, by subst h1; rfl⟩
  · by_cases h2 : c = '<'
    · exact Or.inr (Or.inl ⟨h2, by subst h2; rfl⟩)
    · by_cases h3 : c = '>'
      · exact Or.inr (Or.inr (Or.inl ⟨h3, by subst h3; rfl⟩))
      · exact Or.inr (Or.inr (Or.inr ⟨h1, h2, h3, by simp [escapeChar, h1, h2, h3]⟩))

/-- Neither `<` nor `>` is left by the replacement. -/
theorem not_mem_escape (cs : List Char) :
    '<' ∉ cs.flatMap escapeChar ∧ '>' ∉ cs.flatMap escapeChar := by
  induction cs with
  | nil => simp
  | cons c cs ih =>
    rw [List.flatMap_cons]
    rcases escapeChar_cases c with ⟨_, h⟩ | ⟨_, h⟩ | ⟨_, h⟩ | ⟨_, h2, h3, h⟩
    · rw [h]; simpa using ih
    · rw [h]; simpa using ih
    · rw [h]; simpa using ih
    · rw [h]
      simp only [List.singleton_append, List.mem_cons, not_or]
      exact ⟨⟨fun e => h2 e.symm, ih.1⟩, ⟨fun e => h3 e.symm, ih.2⟩⟩

/-- Every `&` left by the replacement starts an entity. -/
theorem amp_starts_entity (cs : List Char) :
    ∀ i : Nat, (cs.flatMap escapeChar)[i]? = some '&' →
      ∃ e ∈ entities, e <+: (cs.flatMap escapeChar).drop i := by
  induction cs with
  | nil => intro i h; simp at h
  | cons c cs ih =>
    intro i h
    rw [List.flatMap_cons] at h ⊢
    have key : ∀ (e : List Char), e ∈ entities → escapeChar c = e →
        (∀ j, 0 < j → j < e.length → e[j]? ≠ some '&') →
        ∃ e' ∈ entities, e' <+: (escapeChar c ++ cs.flatMap escapeChar).drop i := by
      intro e he hc hno
      by_cases hi : i < e.length
      · rcases Nat.eq_zero_or_pos i with h0 | hpos
        · subst h0
          exact ⟨e, he, by rw [hc, List.drop_zero]; exact List.prefix_append _ _⟩
        · rw [hc, List.getElem?_append_left hi] at h
          exact absurd h (hno i hpos hi)
      · have hi' : e.length ≤ i := Nat.le_of_not_lt hi
        rw [hc, List.getElem?_append_right hi'] at h
        obtain ⟨e', he', hp⟩ := ih (i - e.length) h
        refine ⟨e', he', ?_⟩
        rw [hc, List.drop_append_eq_append_drop, List.drop_eq_nil_of_le hi', List.nil_append]
        exact hp
    rcases escapeChar_cases c with ⟨_, hc⟩ | ⟨_, hc⟩ | ⟨_, hc⟩ | ⟨h1, _, _, hc⟩
    · refine key _ (by simp [entities]) hc ?_
      intro j hj hlt
      have : j = 1 ∨ j = 2 ∨ j = 3 ∨ j = 4 := by
        simp only [String.data, List.length_cons, List.length_nil] at hlt
        omega
      rcases this with rfl | rfl | rfl | rfl <;> decide
    · refine key _ (by simp [entities]) hc ?_
      intro j hj hlt
      have : j = 1 ∨ j = 2 ∨ j = 3 := by
        simp only [String.data, List.length_cons, List.length_nil] at hlt
        omega
      rcases this with rfl | rfl | rfl <;> decide
    · refine key _ (by simp [entities]) hc ?_
      intro j hj hlt
      have : j = 1 ∨ j = 2 ∨ j = 3 := by
        simp only [String.data, List.length_cons, List.length_nil] at hlt
        omega
      rcases this with rfl | rfl | rfl <;> decide
    · rw [hc] at h ⊢
      rcases Nat.eq_zero_or_pos i with h0 | hpos
      · subst h0
        simp only [List.singleton_append, List.getElem?_cons_zero, Option.some.injEq] at h
        exact absurd h h1
      · obtain ⟨k, rfl⟩ : ∃ k, i = k + 1 := ⟨i - 1, by omega⟩
        simp only [List.singleton_append, List.getElem?_cons_succ] at h
        obtain ⟨e', he', hp⟩ := ih k h
        exact ⟨e', he', by simpa using hp⟩

/-- A string without `&`, `<` and `>` is left as it is. -/
theorem escape_of_plain (cs : List Char) (h : '&' ∉ cs ∧ '<' ∉ cs ∧ '>' ∉ cs) :
    cs.flatMap escapeChar = cs := by
  induction cs with
  | nil => rfl
  | cons c cs ih =>
    simp only [List.mem_cons, not_or] at h
    obtain ⟨⟨h1, h1'⟩, ⟨h2, h2'⟩, ⟨h3, h3'⟩⟩ := h
    rw [List.flatMap_cons, ih ⟨h1', h2', h3'⟩]
    simp [escapeChar, Ne.symm h1, Ne.symm h2, Ne.symm h3]

/-- C19: the output of `escapeHtml` holds no `<` and no `>`, every `&` in it starts one of
the entities `&amp;`, `&lt;`, `&gt;`, and the output is the input when the input holds none
of `&`, `<`, `>`. -/
theorem escapeHtml_safe (s : String) :
    '<' ∉ (escapeHtml s).data ∧ '>' ∉ (escapeHtml s).data ∧
    (∀ i : Nat, (escapeHtml s).data[i]? = some '&' →
      "&amp;".data <+: (escapeHtml s).data.drop i ∨
      "&lt;".data <+: (escapeHtml s).data.drop i ∨
      "&gt;".data <+: (escapeHtml s).data.drop i) ∧
    (('&' ∉ s.data ∧ '<' ∉ s.data ∧ '>' ∉ s.data) → escapeHtml s = s) := by
  refine ⟨(not_mem_escape s.data).1, (not_mem_escape s.data).2, ?_, ?_⟩
  · intro i h
    obtain ⟨e, he, hp⟩ := amp_starts_entity s.data i h
    simp only [entities, List.mem_cons, List.mem_singleton, List.not_mem_nil, or_false] at he
    rcases he with rfl | rfl | rfl
    · exact Or.inl hp
    · exact Or.inr (Or.inl hp)
    · exact Or.inr (Or.inr hp)
  · intro h
    unfold escapeHtml
    rw [escape_of_plain s.data h]


end GameHub
